import Mathlib

/-!
# Verification of the enhanced incentive–company matching pipeline

A shallow embedding, in Lean 4, of the matching orchestrator and its
supporting services from `enhanced_incentive_matching.py` (together with the
per-incentive outcome classification of
`scripts/batch_process_with_scoring.py`), and proofs of the specified
properties of that code.

Modelling conventions:
* Python `float` values (scores, coordinates) are modelled as `ℚ`.
* Python `str` values are Lean `String`s; the string operations used by the
  code (`lower`, `strip`, `split`, `find`, `rfind`, slicing, containment)
  are re-implemented on `String.data` so that they are executable by `decide`.
* Python `dict`s keyed by identifiers are association lists with
  first-occurrence key order and last-write-wins values (`pyDictInsert`),
  exactly the observable behaviour of `dict` construction in the source.
* External capabilities (vector search, reranker scores, the Google-Maps
  geocoding call, the GPT chat completions and the `json.loads` library
  routine) are oracle functions collected in an `Env` record, following the
  external-interface contracts of the code; everything the repository itself
  computes is embedded.
* `datetime` timestamps carry no information used by any property and are
  elided from the embedded records.
* Python's stable `sorted(key=…, reverse=True)` is modelled by a stable
  insertion sort `pySortDesc` (the result of a stable sort is unique, so any
  stable sorting algorithm is an exact model of `sorted`).
-/

/-! ## Python-level primitives -/

/-- Python truthiness of an optional string: `None` and `""` are falsy. -/
def pyTruthy (s : Option String) : Bool :=
  match s with
  | none => false
  | some t => t ≠ ""

/-- Python `a or default` for an optional string (`None`/`""` replaced). -/
def pyOrStr (s : Option String) (d : String) : String :=
  match s with
  | none => d
  | some t => if t = "" then d else t

/-- Python `dict` insertion: overwrite the value in place if the key is
present, otherwise append the binding at the end (insertion order
preserved, exactly the observable behaviour of `d[k] = v`). -/
def pyDictInsert {β : Type} (d : List (Nat × β)) (k : Nat) (v : β) :
    List (Nat × β) :=
  match d with
  | [] => [(k, v)]
  | p :: t => if p.1 = k then (k, v) :: t else p :: pyDictInsert t k v

/-- Python `dict.get`: the value bound to `k`, if any. -/
def pyGet {β : Type} (d : List (Nat × β)) (k : Nat) : Option β :=
  match d with
  | [] => none
  | p :: t => if p.1 = k then some p.2 else pyGet t k

/-- `dict.get` for string-keyed dictionaries (parsed JSON objects). -/
def pyGetStr {β : Type} (d : List (String × β)) (k : String) : Option β :=
  match d with
  | [] => none
  | p :: t => if p.1 = k then some p.2 else pyGetStr t k

/-- Lowercase a character as Python `str.lower` does, covering ASCII plus the
accented Latin letters that occur in the code's keyword tables. -/
def pyLowerChar (c : Char) : Char :=
  if c = 'Ç' then 'ç' else if c = 'Ã' then 'ã' else if c = 'Õ' then 'õ'
  else if c = 'Á' then 'á' else if c = 'À' then 'à' else if c = 'Â' then 'â'
  else if c = 'É' then 'é' else if c = 'Ê' then 'ê' else if c = 'Í' then 'í'
  else if c = 'Ó' then 'ó' else if c = 'Ô' then 'ô' else if c = 'Ú' then 'ú'
  else c.toLower

/-- Uppercase a character as Python `str.upper` does, covering ASCII plus the
accented Latin letters that occur in the code's legal-form markers. -/
def pyUpperChar (c : Char) : Char :=
  if c = 'ç' then 'Ç' else if c = 'ã' then 'Ã' else if c = 'õ' then 'Õ'
  else if c = 'á' then 'Á' else if c = 'à' then 'À' else if c = 'â' then 'Â'
  else if c = 'é' then 'É' else if c = 'ê' then 'Ê' else if c = 'í' then 'Í'
  else if c = 'ó' then 'Ó' else if c = 'ô' then 'Ô' else if c = 'ú' then 'Ú'
  else c.toUpper

/-- Python `str.lower`. -/
def pyLower (s : String) : String := String.mk (s.data.map pyLowerChar)

/-- Python `str.upper`. -/
def pyUpper (s : String) : String := String.mk (s.data.map pyUpperChar)

/-- Python `str.strip()`: drop whitespace from both ends. -/
def pyStrip (s : String) : String :=
  String.mk (((s.data.dropWhile Char.isWhitespace).reverse.dropWhile
    Char.isWhitespace).reverse)

/-- Python `str.split()` with no argument: split on runs of whitespace,
discarding empty pieces. -/
def pySplitWS (s : String) : List String :=
  ((String.mk s.data).split Char.isWhitespace).filter (fun t => t ≠ "")

/-- Python `str.find`: index of the first occurrence of `c`, or `-1`. -/
def pyFind (s : String) (c : Char) : Int :=
  match s.data.findIdx? (· == c) with
  | some i => (i : Int)
  | none => -1

/-- Python `str.rfind`: index of the last occurrence of `c`, or `-1`. -/
def pyRFind (s : String) (c : Char) : Int :=
  match s.data.reverse.findIdx? (· == c) with
  | some i => ((s.data.length - 1 - i : Nat) : Int)
  | none => -1

/-- Python slicing `s[a:b]` for `0 ≤ a ≤ b`. -/
def pySlice (s : String) (a b : Nat) : String :=
  String.mk ((s.data.drop a).take (b - a))

/-- Python `needle in hay` on strings (substring containment). -/
def pyContainsList (hay needle : List Char) : Bool :=
  match hay with
  | [] => needle.isEmpty
  | _ :: t => needle.isPrefixOf hay || pyContainsList t needle

/-- Python `needle in hay` on strings. -/
def pyContains (hay needle : String) : Bool :=
  pyContainsList hay.data needle.data

/-- Python `min` of a non-empty list (`0` on the never-used empty case). -/
def listMin (l : List ℚ) : ℚ :=
  match l with
  | [] => 0
  | x :: xs => xs.foldl min x

/-- Python `max` of a non-empty list (`0` on the never-used empty case). -/
def listMax (l : List ℚ) : ℚ :=
  match l with
  | [] => 0
  | x :: xs => xs.foldl max x

/-- Stable insertion of `a` into a list sorted descendingly by `key`:
`a` goes in front of the first element whose key is `≤ key a`, so that among
equal keys earlier elements stay first — the stability contract of Python's
`sorted`. -/
def insertDesc {α : Type} (key : α → ℚ) (a : α) : List α → List α
  | [] => [a]
  | b :: bs => if key b ≤ key a then a :: b :: bs else b :: insertDesc key a bs

/-- Python `sorted(l, key=key, reverse=True)`: the stable descending sort. -/
def pySortDesc {α : Type} (key : α → ℚ) : List α → List α
  | [] => []
  | a :: as => insertDesc key a (pySortDesc key as)

/-! ## Data model

Records mirroring the dataclasses and row/dict shapes of
`enhanced_incentive_matching.py`. -/

/-- `CompanyLocation` dataclass (timestamp elided). -/
structure CompanyLocation where
  company_id : Nat
  latitude : Option ℚ
  longitude : Option ℚ
  formatted_address : Option String
  api_status : String
  deriving Repr, DecidableEq

/-- A row of the `companies` table: the attribute columns read by
`enrich_with_postgres` plus the location cache columns managed by
`DatabaseManager` (timestamp column elided). -/
structure CompanyRow where
  company_id : Nat
  company_name : String
  cae_primary_label : Option String
  trade_description_native : Option String
  website : Option String
  location_lat : Option ℚ := none
  location_lon : Option ℚ := none
  location_address : Option String := none
  location_api_status : Option String := none
  deriving Repr, DecidableEq

/-- The per-candidate dictionary threaded through the pipeline. Keys that a
given stage has not yet written are `Option`al with `none` for "absent"
(`dict.get` of an absent key); `company_score` is `none` until the scorer
assigns it, so that "FinalScore unset" is observable. -/
structure Company where
  id : Nat
  name : String
  cae : Option String := none
  activities : Option String := none
  website : Option String := none
  fusion_score : ℚ := 0
  rerank_score : ℚ := 0
  location_lat : Option ℚ := none
  location_lon : Option ℚ := none
  location_address : Option String := none
  formatted_address : Option String := none
  location_api_status : Option String := none
  geo_eligible : Bool := false
  company_score : Option ℚ := none
  deriving Repr, DecidableEq

/-- A hit returned by the vector index (`search_companies_qdrant`);
the payload is not consulted by the pipeline. -/
structure VecHit where
  id : Nat
  score : ℚ
  deriving Repr, DecidableEq

/-- The incentive dictionary built by the batch driver /
`get_random_incentive`. `title` and `geo_requirement` are accessed with
mandatory-key lookups in the code, the other text fields through `.get`. -/
structure Incentive where
  id : Nat
  title : String
  sector : Option String := none
  geo_requirement : String
  eligible_actions : Option String := none
  ai_description : Option String := none
  deriving Repr, DecidableEq

/-- The per-company feature dictionary assembled by
`CompanyScorer.score_companies` (`scoring_data` entries). -/
structure ScoreRow where
  company_id : Nat
  s : ℚ
  m : ℚ
  g : ℚ
  o : ℚ
  org_direction : Int
  w : ℚ
  deriving Repr, DecidableEq

/-- The data submitted per company to the eligibility reasoning call
(`company_data` entries in `GeographicAnalyzer.analyze_eligibility`). -/
structure GeoEntry where
  company_id : Nat
  name : String
  address : String
  deriving Repr, DecidableEq

/-- The external capabilities consumed by the pipeline, as oracle
functions (spec §6): the vector index, the per-pair reranker score, the
geocoding call outcome, the two GPT completions (`none` models an exception
raised during the call) and the `json.loads` parses of the extracted JSON
text (`none` models a parse/conversion failure; boolean values carry the
Python truthiness used via `bool(…)`). -/
structure Env where
  search : String → Nat → List VecHit
  rerank : String → String → ℚ
  gmaps : Nat → String → CompanyLocation
  geoResp : List GeoEntry → String → Option String
  geoLoads : String → Option (List (String × Bool))
  scoreResp : List ScoreRow → Option String
  scoreLoads : String → Option (List (Nat × ℚ))

/-- The mutable state of one orchestrator run: the session-level
`memory_cache` of `LocationService`, the persistent `companies` table and
the count of external geocoding calls made. -/
structure LocState where
  memory_cache : List (Nat × CompanyLocation) := []
  table : List CompanyRow
  api_calls : Nat := 0
  deriving Repr, DecidableEq

/-! ## DatabaseManager -/

namespace DatabaseManager

/-- `DatabaseManager.get_company_location`: fetch the cached location row for
a company. The SQL `WHERE` clause requires a stored status or a stored
latitude; the returned status is
`(stored_status or 'success') if lat is not None else 'unknown'`
(the Python conditional binds looser than `or`). -/
def get_company_location (table : List CompanyRow) (company_id : Nat) :
    Option CompanyLocation :=
  match table.find? (fun r =>
      r.company_id == company_id &&
      (r.location_api_status.isSome || r.location_lat.isSome)) with
  | none => none
  | some r =>
    some { company_id := r.company_id
           latitude := r.location_lat
           longitude := r.location_lon
           formatted_address := r.location_address
           api_status :=
             if r.location_lat.isSome then pyOrStr r.location_api_status "success"
             else "unknown" }

/-- `DatabaseManager.save_company_location`: SQL `UPDATE … WHERE company_id`;
rows with other identifiers are untouched, and a missing row makes the
statement a silent no-op. -/
def save_company_location (table : List CompanyRow) (loc : CompanyLocation) :
    List CompanyRow :=
  table.map (fun r =>
    if r.company_id == loc.company_id then
      { r with location_lat := loc.latitude
               location_lon := loc.longitude
               location_address := loc.formatted_address
               location_api_status := some loc.api_status }
    else r)

end DatabaseManager

/-! ## LocationService -/

namespace LocationService

/-- `LocationService.get_company_location`: three-tier lookup.
The orchestrator always passes `existing_address=None`, so the geocoding
oracle is keyed by company identifier and name.
Memory-cache hit returns immediately; a database hit is stored in the memory
cache and then has its `api_status` field overwritten to `"cached"` (the
Python code mutates the very object it just cached, so the memory cache holds
the `"cached"` status as well); otherwise the Google-Maps call runs and its
outcome — success or failure — is written to the memory cache and the
persistent table. `api_calls` counts external geocoding calls. -/
def get_company_location (env : Env) (st : LocState) (company_id : Nat)
    (company_name : String) : CompanyLocation × LocState :=
  match pyGet st.memory_cache company_id with
  | some loc => (loc, st)
  | none =>
    match DatabaseManager.get_company_location st.table company_id with
    | some cached_location =>
      let c := { cached_location with api_status := "cached" }
      (c, { st with memory_cache := pyDictInsert st.memory_cache company_id c })
    | none =>
      let location := env.gmaps company_id company_name
      let location := { location with company_id := company_id }
      (location,
       { memory_cache := pyDictInsert st.memory_cache company_id location
         table := DatabaseManager.save_company_location st.table location
         api_calls := st.api_calls + 1 })

end LocationService

/-! ## GeographicAnalyzer -/

namespace GeographicAnalyzer

/-- The candidates submitted to the reasoning call: those with a truthy
`formatted_address` or `location_address` and `location_api_status ==
'success'`. -/
def valid_location_companies (companies : List Company) : List Company :=
  companies.filter (fun c =>
    (pyTruthy c.formatted_address || pyTruthy c.location_address) &&
    c.location_api_status == some "success")

/-- The `company_data` rows sent to the reasoning capability. -/
def company_data (companies : List Company) : List GeoEntry :=
  companies.map (fun c =>
    { company_id := c.id
      name := c.name
      address := pyOrStr c.formatted_address
        (pyOrStr c.location_address "") })

/-- The defensive JSON extraction shared by both GPT call sites:
`json_start = text.find('{')`, `json_end = text.rfind('}') + 1`, keep
`text[json_start:json_end]` when `json_start >= 0 and json_end > json_start`. -/
def extract_json (text : String) : Option String :=
  let json_start := pyFind text (Char.ofNat 123)
  let json_end := pyRFind text (Char.ofNat 125) + 1
  if 0 ≤ json_start ∧ json_start < json_end then
    some (pySlice text json_start.toNat json_end.toNat)
  else none

/-- The body of the `try` block of `analyze_eligibility` up to the parsed
map: `none` is the exception path (call failure, empty stripped response,
no JSON object found, or `json.loads` failure). -/
def geo_try_parse (env : Env) (entries : List GeoEntry)
    (geo_requirement : String) : Option (List (String × Bool)) :=
  match env.geoResp entries geo_requirement with
  | none => none
  | some raw =>
    let result_text := pyStrip raw
    if result_text = "" then none
    else
      match extract_json result_text with
      | some json_text => env.geoLoads json_text
      | none => none

/-- The dictionary `{c['id']: False for c in companies}`. -/
def all_false (companies : List Company) : List (Nat × Bool) :=
  companies.foldl (fun d c => pyDictInsert d c.id false) []

/-- The final per-company verdict in the success path: `False` for any
company whose location status is not `'success'`, otherwise the parsed
response's entry for `str(company_id)` with default `False`. -/
def final_result (m : List (String × Bool)) (c : Company) : Bool :=
  if c.location_api_status ≠ some "success" then false
  else ((pyGetStr m (toString c.id)).getD false)

/-- `GeographicAnalyzer.analyze_eligibility`: filter the candidates with a
usable location, early-return all-`False` if none remain, otherwise submit
them to the reasoning capability and assemble one verdict per candidate;
any exception inside the `try` block yields the all-`False` fallback. -/
def analyze_eligibility (env : Env) (companies_with_locations : List Company)
    (geo_requirement : String) : List (Nat × Bool) :=
  if (valid_location_companies companies_with_locations).isEmpty then
    all_false companies_with_locations
  else
    match geo_try_parse env
        (company_data (valid_location_companies companies_with_locations))
        geo_requirement with
    | none => all_false companies_with_locations
    | some eligibility_results =>
      companies_with_locations.foldl
        (fun d c => pyDictInsert d c.id (final_result eligibility_results c)) []

end GeographicAnalyzer

/-! ## CompanyScorer -/

namespace CompanyScorer

/-- `CompanyScorer._normalize_scores`: min–max normalization to `[0, 1]`,
with all-ones for empty, singleton or constant inputs. -/
def normalize_scores (scores : List ℚ) : List ℚ :=
  if scores = [] ∨ scores.length = 1 then
    List.replicate scores.length 1
  else if listMax scores = listMin scores then
    List.replicate scores.length 1
  else
    scores.map (fun s =>
      (s - listMin scores) / (listMax scores - listMin scores))

/-- The fixed stop-word list of `_calculate_cae_overlap`. -/
def stop_words : List String :=
  ["de", "da", "do", "e", "a", "o", "para", "com", "em", "por",
   "the", "and", "or", "of", "to", "in"]

/-- Lowercased word set of a text, as `set(text.lower().split())`. -/
def keyword_set (text : String) : Finset String :=
  (pySplitWS (pyLower text)).toFinset

/-- The incentive-side keyword set of `_calculate_cae_overlap`:
`set((sector + ' ' + eligible_actions).lower().split()) - stop_words`. -/
def incentive_keywords (incentive : Incentive) : Finset String :=
  keyword_set ((incentive.sector.getD "") ++ " " ++
    (incentive.eligible_actions.getD "")) \ stop_words.toFinset

/-- The company-side keyword set of `_calculate_cae_overlap`. The company
dictionary key read here is `'cae_label'`, which no stage of the pipeline
ever writes (candidates carry `'cae'`), so that lookup always yields its
`''` default and only `'activities'` contributes. -/
def company_keywords (company : Company) : Finset String :=
  keyword_set ("" ++ " " ++ (company.activities.getD "")) \ stop_words.toFinset

/-- `CompanyScorer._calculate_cae_overlap`: Jaccard similarity between the
incentive's sector+actions keywords and the company's keywords, after
stop-word removal. -/
def calculate_cae_overlap (company : Company) (incentive : Incentive) : ℚ :=
  if incentive_keywords incentive = ∅ ∨ company_keywords company = ∅ then 0
  else if 0 < (incentive_keywords incentive ∪ company_keywords company).card
    then
    ((incentive_keywords incentive ∩ company_keywords company).card : ℚ) /
      ((incentive_keywords incentive ∪ company_keywords company).card : ℚ)
  else 0

/-- `CompanyScorer._calculate_geographic_fit`: `1.0` if the candidate was
marked geo-eligible, `0.0` if its location resolved successfully but it was
not eligible, `0.5` otherwise (location unknown). -/
def calculate_geographic_fit (company : Company) : ℚ :=
  if company.geo_eligible then 1
  else if company.location_api_status == some "success" then 0
  else 1/2

/-- `CompanyScorer._calculate_org_capacity`: legal-form lookup by substring
match on the uppercased company name. -/
def calculate_org_capacity (company : Company) : ℚ :=
  let name := pyUpper company.name
  if pyContains name "S.A." || pyContains name "SA " then 1
  else if ["COOPERATIVA", "ASSOCIAÇÃO", "FUNDAÇÃO", "MISERICÓRDIA",
           "CENTRO SOCIAL"].any (fun term => pyContains name term) then 1
  else if pyContains name "SGPS" then 6/10
  else if pyContains name "UNIPESSOAL" then 4/10
  else if pyContains name "LDA" || pyContains name "LTD" then 7/10
  else 1/2

/-- `CompanyScorer._determine_org_direction`: keyword scan of the
incentive's title+sector+actions text. -/
def determine_org_direction (incentive : Incentive) : Int :=
  let text := pyLower (incentive.title ++ " " ++ (incentive.sector.getD "")
    ++ " " ++ (incentive.eligible_actions.getD ""))
  if ["associação", "cooperativa", "social", "nonprofit", "terceiro setor",
      "ipss"].any (fun k => pyContains text k) then 0
  else if ["pme", "pequena", "micro", "startup", "empreendedor"].any
      (fun k => pyContains text k) then -1
  else if ["grande empresa", "multinacional", "corporação", "s.a."].any
      (fun k => pyContains text k) then 1
  else if pyContains text "administração pública" || pyContains text "governo"
    then 1
  else 0

/-- The per-company feature row assembled inside `score_companies`. -/
def scoring_row (incentive : Incentive) (c : Company) (s : ℚ) : ScoreRow :=
  { company_id := c.id
    s := s
    m := calculate_cae_overlap c incentive
    g := calculate_geographic_fit c
    o := calculate_org_capacity c
    org_direction := determine_org_direction incentive
    w := if pyTruthy c.website && c.website ≠ some "N/A" then 1 else 0 }

/-- The `scoring_data` list: one feature row per company, with the `i`-th
normalized semantic score (`for i, company in enumerate(companies)`). -/
def scoring_rows (incentive : Incentive) (s_scores : List ℚ) (i : Nat) :
    List Company → List ScoreRow
  | [] => []
  | c :: cs =>
    scoring_row incentive c (s_scores.getD i 0)
      :: scoring_rows incentive s_scores (i + 1) cs

/-- `CompanyScorer._compute_scores_with_llm`: submit the feature rows to the
reasoning capability and defensively parse a numeric map out of the reply;
every failure (call exception, no JSON object found, `json.loads` error or a
key/value conversion error) yields the empty dictionary. -/
def compute_scores_with_llm (env : Env) (scoring_data : List ScoreRow) :
    List (Nat × ℚ) :=
  match env.scoreResp scoring_data with
  | none => []
  | some raw =>
    let result_text := pyStrip raw
    match GeographicAnalyzer.extract_json result_text with
    | none => []
    | some json_text =>
      match env.scoreLoads json_text with
      | none => []
      | some scores => scores

/-- The annotation pass of `score_companies`: each company receives
`company_score = final_scores.get(id, 0.0)` and its feature row. -/
def attach_scores (final_scores : List (Nat × ℚ)) (incentive : Incentive)
    (s_scores : List ℚ) (i : Nat) : List Company → List (Company × ScoreRow)
  | [] => []
  | c :: cs =>
    ({ c with company_score := some ((pyGet final_scores c.id).getD 0) },
     scoring_row incentive c (s_scores.getD i 0))
      :: attach_scores final_scores incentive s_scores (i + 1) cs

/-- `CompanyScorer.score_companies`: normalize the semantic scores, build the
feature rows, delegate the final combination to the reasoning capability and
annotate every company. Indexing `s_scores[i]` raises `IndexError` when fewer
semantic scores than companies are supplied; that partiality is the `none`
result. Each returned company is paired with its `score_components` row. -/
def score_companies (env : Env) (companies : List Company)
    (incentive : Incentive) (semantic_scores : List ℚ) :
    Option (List (Company × ScoreRow)) :=
  let s_scores := normalize_scores semantic_scores
  if companies.length ≤ s_scores.length then
    let scoring_data := scoring_rows incentive s_scores 0 companies
    let final_scores := compute_scores_with_llm env scoring_data
    some (attach_scores final_scores incentive s_scores 0 companies)
  else none

end CompanyScorer

/-! ## Retrieval, enrichment and reranking wrappers -/

/-- `create_search_query`: join the truthy sector / AI-description /
eligible-actions texts with single spaces. -/
def create_search_query (incentive : Incentive) : String :=
  String.intercalate " "
    (([incentive.sector, incentive.ai_description,
       incentive.eligible_actions].filterMap id).filter (fun t => t ≠ ""))

/-- `enrich_with_postgres`: the dictionary of company attributes for the
requested identifiers, built from the `companies` table rows whose id is
among the candidates. -/
def enrich_with_postgres (table : List CompanyRow) (company_ids : List Nat) :
    List (Nat × Company) :=
  (table.filter (fun r => company_ids.contains r.company_id)).foldl
    (fun d r => pyDictInsert d r.company_id
      { id := r.company_id
        name := r.company_name
        cae := r.cae_primary_label
        activities := r.trade_description_native
        website := r.website })
    []

/-- The query–document text of a candidate for the reranker:
`f"{name} {cae or ''} {activities or ''}"`. -/
def company_doc (c : Company) : String :=
  c.name ++ " " ++ pyOrStr c.cae "" ++ " " ++ pyOrStr c.activities ""

/-- `rerank_companies` (reranker available, `top_k = len(companies)`):
attach the cross-encoder score of every candidate and sort by it,
descending and stably. -/
def rerank_companies (env : Env) (query : String) (companies : List Company) :
    List Company :=
  (pySortDesc (fun c => c.rerank_score)
    (companies.map (fun c =>
      { c with rerank_score := env.rerank query (company_doc c) }))).take
    companies.length

/-- `EnhancedMatchingPipeline._enrich_with_locations`: resolve every
candidate's location through the `LocationService` (threading its cache
state) and copy the outcome into the candidate dictionary. -/
def enrich_with_locations (env : Env) (st : LocState)
    (companies : List Company) : List Company × LocState :=
  companies.foldl
    (fun acc c =>
      let r := LocationService.get_company_location env acc.2 c.id c.name
      (acc.1 ++
        [{ c with location_lat := r.1.latitude
                  location_lon := r.1.longitude
                  location_address := r.1.formatted_address
                  formatted_address := r.1.formatted_address
                  location_api_status := some r.1.api_status }],
       r.2))
    ([], st)

/-! ## The expansion loop -/

/-- The data computed by one iteration of the expansion loop (stages 1–4 of
`find_matching_companies`), or `none` when the vector search returned no
results. -/
structure IterData where
  companies_with_locations : List Company
  eligible_companies : List Company
  st : LocState
  deriving Repr, DecidableEq

/-- One body execution of the `while candidates_to_try <= max_candidates`
loop: vector search at the current pool size, attribute enrichment, fusion
of hits with attributes, reranking, location enrichment and geographic
filtering. -/
def run_iteration (env : Env) (query geo_requirement : String) (st : LocState)
    (candidates_to_try : Nat) : Option IterData :=
  let vector_results := env.search query candidates_to_try
  if vector_results.isEmpty then none
  else
    let company_ids := vector_results.map (fun r => r.id)
    let company_details := enrich_with_postgres st.table company_ids
    let companies_for_reranking := vector_results.filterMap (fun r =>
      (pyGet company_details r.id).map (fun c => { c with fusion_score := r.score }))
    let reranked_companies := rerank_companies env query companies_for_reranking
    let enriched := enrich_with_locations env st reranked_companies
    let eligibility_results := GeographicAnalyzer.analyze_eligibility env
      enriched.1 geo_requirement
    let eligible_companies := enriched.1.filter (fun c =>
      (pyGet eligibility_results c.id).getD false)
    some { companies_with_locations := enriched.1
           eligible_companies := eligible_companies
           st := enriched.2 }

/-- The top five eligible candidates by rerank score
(`sorted(eligible_companies, key=rerank_score, reverse=True)[:5]`). -/
def top5_by_rerank (eligible_companies : List Company) : List Company :=
  (pySortDesc (fun c => c.rerank_score) eligible_companies).take 5

/-- How the expansion loop ended. `finalized` carries `final_companies`, the
pool size at exit (`candidates_to_try`), the location-service state, and the
number of loop-body iterations executed. `unbound` is every exit of the
`while` loop that never assigned `final_companies` — an empty vector-search
result, or the loop condition failing — after which the Python code raises
`UnboundLocalError` when it reads `final_companies`. -/
inductive LoopOutcome where
  | finalized (final_companies : List Company) (candidates_to_try : Nat)
      (st : LocState) (iterations : Nat)
  | unbound (st : LocState) (iterations : Nat)
  deriving Repr, DecidableEq

/-- Iterations executed by the loop. -/
def LoopOutcome.iterations : LoopOutcome → Nat
  | .finalized _ _ _ k => k
  | .unbound _ k => k

/-- The expansion loop of `find_matching_companies`, parameterized by the
expansion step (`candidates_to_try += 10` in the source, with
`candidates_to_try` starting at 10): while the pool size is within
`max_candidates`, run one iteration; finalize with the top five eligible
candidates when at least five are eligible, finalize with all eligible
candidates when the pool has reached `max_candidates`, and otherwise expand
the pool and re-run everything. -/
def expansion_loop (env : Env) (query geo_requirement : String)
    (max_candidates step : Nat) (hstep : 0 < step) (st : LocState)
    (candidates_to_try : Nat) : LoopOutcome :=
  if h : candidates_to_try ≤ max_candidates then
    match run_iteration env query geo_requirement st candidates_to_try with
    | none => .unbound st 1
    | some iter =>
      if 5 ≤ iter.eligible_companies.length then
        .finalized (top5_by_rerank iter.eligible_companies) candidates_to_try
          iter.st 1
      else if max_candidates ≤ candidates_to_try then
        .finalized iter.eligible_companies candidates_to_try iter.st 1
      else
        match expansion_loop env query geo_requirement max_candidates step
            hstep iter.st (candidates_to_try + step) with
        | .finalized fc n st' k => .finalized fc n st' (k + 1)
        | .unbound st' k => .unbound st' (k + 1)
  else .unbound st 0
termination_by max_candidates + 1 - candidates_to_try
decreasing_by omega

/-! ## Finalization, persistence and the batch driver -/

/-- One entry of the persisted `top_5_companies` JSON
(`DatabaseManager.save_matching_results`). -/
structure ResultEntry where
  id : Nat
  rank : Nat
  semantic_score : ℚ
  name : String
  cae_classification : Option String
  website : Option String
  location_address : Option String
  activities : Option String
  deriving Repr, DecidableEq

/-- One entry of the persisted `top_5_companies_scored` JSON
(`DatabaseManager.save_scored_results`), including the component breakdown. -/
structure ScoredEntry where
  id : Nat
  rank : Nat
  company_score : ℚ
  semantic_score : ℚ
  score_components : ScoreRow
  name : String
  cae_classification : Option String
  website : Option String
  location_address : Option String
  activities : Option String
  deriving Repr, DecidableEq

/-- `DatabaseManager.save_matching_results`: the `companies` array of the
JSON written to `incentives.top_5_companies`, ranked in list order. -/
def save_matching_results (companies : List Company) (rank : Nat := 1) :
    List ResultEntry :=
  match companies with
  | [] => []
  | c :: cs =>
    { id := c.id
      rank := rank
      semantic_score := c.rerank_score
      name := c.name
      cae_classification := c.cae
      website := c.website
      location_address := c.location_address
      activities := if pyTruthy c.activities then
        some (pySlice (c.activities.getD "") 0 200) else none }
      :: save_matching_results cs (rank + 1)

/-- `DatabaseManager.save_scored_results`: the `companies` array of the JSON
written to `incentives.top_5_companies_scored`, ranked in list order. -/
def save_scored_results (scored_companies : List (Company × ScoreRow))
    (rank : Nat := 1) : List ScoredEntry :=
  match scored_companies with
  | [] => []
  | c :: cs =>
    { id := c.1.id
      rank := rank
      company_score := c.1.company_score.getD 0
      semantic_score := c.1.rerank_score
      score_components := c.2
      name := c.1.name
      cae_classification := c.1.cae
      website := c.1.website
      location_address := c.1.location_address
      activities := if pyTruthy c.1.activities then
        some (pySlice (c.1.activities.getD "") 0 200) else none }
      :: save_scored_results cs (rank + 1)

/-- The `geo_eligible` flag assignment of `find_matching_companies`:
`company['geo_eligible'] = True` for every finalized company. -/
def flag_geo_eligible (companies : List Company) : List Company :=
  companies.map (fun c => { c with geo_eligible := true })

/-- A completed orchestrator run: the semantic result (as persisted to
`top_5_companies` plus its metadata), the scored result (as persisted to
`top_5_companies_scored`), and the final service state. -/
structure RunOutput where
  incentive_id : Nat
  companies : List ResultEntry
  total_candidates_searched : Nat
  geographic_eligible_count : Nat
  scored : List ScoredEntry
  st : LocState
  deriving Repr, DecidableEq

/-- Stage 5 of `find_matching_companies`: collect the rerank scores of the
finalized companies, mark every one of them geo-eligible, score them, and
sort the scored list by `company_score` (stably, descending) for the scored
ranking; the semantic ranking keeps the finalized order. `none` is the
(unreachable for this caller) `IndexError` partiality of the scorer. -/
def finalize_stage (env : Env) (incentive : Incentive)
    (final_companies : List Company) :
    Option (List Company × List (Company × ScoreRow)) :=
  let semantic_scores := final_companies.map (fun c => c.rerank_score)
  let flagged := flag_geo_eligible final_companies
  match CompanyScorer.score_companies env flagged incentive semantic_scores with
  | none => none
  | some scored_companies =>
    some (flagged, pySortDesc (fun p => p.1.company_score.getD 0) scored_companies)

/-- `EnhancedMatchingPipeline.find_matching_companies`: run the expansion
loop from a pool of 10 in steps of 10, then score, rank and persist.
`none` models the run dying with an uncaught exception (`UnboundLocalError`
on `final_companies` after a loop exit that never assigned it). -/
def find_matching_companies (env : Env) (incentive : Incentive)
    (max_candidates : Nat) (st : LocState) : Option RunOutput :=
  let query := create_search_query incentive
  match expansion_loop env query incentive.geo_requirement max_candidates 10
      (by decide) st 10 with
  | .unbound _ _ => none
  | .finalized final_companies candidates_to_try st' _ =>
    match finalize_stage env incentive final_companies with
    | none => none
    | some (flagged, scored_sorted) =>
      some { incentive_id := incentive.id
             companies := save_matching_results flagged
             total_candidates_searched := candidates_to_try
             geographic_eligible_count := flagged.length
             scored := save_scored_results scored_sorted
             st := st' }

/-- The per-incentive outcome classification of
`scripts/batch_process_with_scoring.py::process_batch`: an uncaught
exception counts the incentive as failed; a result with at least one company
as successful; an empty result as skipped. -/
inductive BatchOutcome where
  | success
  | failed
  | skipped
  deriving Repr, DecidableEq

/-- How `process_batch` tallies one incentive. -/
def batch_incentive_outcome (result : Option RunOutput) : BatchOutcome :=
  match result with
  | none => .failed
  | some r => if 0 < r.companies.length then .success else .skipped

/-! ## Lemmas: the stable descending sort -/

theorem mem_insertDesc {α : Type} (key : α → ℚ) (a x : α) (l : List α) :
    x ∈ insertDesc key a l ↔ x = a ∨ x ∈ l := by
  induction l with
  | nil => simp [insertDesc]
  | cons b bs ih =>
    by_cases h : key b ≤ key a
    · simp [insertDesc, h]
    · simp only [insertDesc, if_neg h, List.mem_cons, ih]
      tauto

theorem insertDesc_perm {α : Type} (key : α → ℚ) (a : α) (l : List α) :
    List.Perm (insertDesc key a l) (a :: l) := by
  induction l with
  | nil => simp [insertDesc]
  | cons b bs ih =>
    by_cases h : key b ≤ key a
    · simp [insertDesc, h]
    · rw [insertDesc, if_neg h]
      exact (ih.cons b).trans (List.Perm.swap a b bs)

theorem pySortDesc_perm {α : Type} (key : α → ℚ) (l : List α) :
    List.Perm (pySortDesc key l) l := by
  induction l with
  | nil => simp [pySortDesc]
  | cons a as ih =>
    exact (insertDesc_perm key a (pySortDesc key as)).trans (ih.cons a)

theorem length_pySortDesc {α : Type} (key : α → ℚ) (l : List α) :
    (pySortDesc key l).length = l.length :=
  (pySortDesc_perm key l).length_eq

theorem mem_pySortDesc {α : Type} (key : α → ℚ) (l : List α) (x : α) :
    x ∈ pySortDesc key l ↔ x ∈ l :=
  (pySortDesc_perm key l).mem_iff

theorem pairwise_insertDesc {α : Type} (key : α → ℚ) (a : α) (l : List α)
    (h : l.Pairwise (fun x y => key y ≤ key x)) :
    (insertDesc key a l).Pairwise (fun x y => key y ≤ key x) := by
  induction l with
  | nil => simp [insertDesc]
  | cons b bs ih =>
    rcases List.pairwise_cons.mp h with ⟨hb, hbs⟩
    by_cases hba : key b ≤ key a
    · rw [insertDesc, if_pos hba]
      refine List.pairwise_cons.mpr ⟨?_, h⟩
      intro x hx
      rcases List.mem_cons.mp hx with rfl | hx
      · exact hba
      · exact le_trans (hb x hx) hba
    · rw [insertDesc, if_neg hba]
      refine List.pairwise_cons.mpr ⟨?_, ih hbs⟩
      intro x hx
      rcases (mem_insertDesc key a x bs).mp hx with rfl | hx
      · exact le_of_lt (lt_of_not_le hba)
      · exact hb x hx

theorem pairwise_pySortDesc {α : Type} (key : α → ℚ) (l : List α) :
    (pySortDesc key l).Pairwise (fun x y => key y ≤ key x) := by
  induction l with
  | nil => simp [pySortDesc]
  | cons a as ih => exact pairwise_insertDesc key a (pySortDesc key as) ih

theorem pySortDesc_of_sorted {α : Type} (key : α → ℚ) (l : List α)
    (h : l.Pairwise (fun x y => key y ≤ key x)) : pySortDesc key l = l := by
  induction l with
  | nil => rfl
  | cons a as ih =>
    rcases List.pairwise_cons.mp h with ⟨ha, has⟩
    rw [pySortDesc, ih has]
    cases as with
    | nil => rfl
    | cons b bs =>
      rw [insertDesc, if_pos (ha b (List.mem_cons_self b bs))]

/-! ## Lemmas: Python dictionaries -/

/-- The keys of a dictionary. -/
def dictKeys {β : Type} (d : List (Nat × β)) : List Nat := d.map Prod.fst

theorem mem_dictKeys_pyDictInsert {β : Type} (d : List (Nat × β)) (k k' : Nat)
    (v : β) :
    k' ∈ dictKeys (pyDictInsert d k v) ↔ k' = k ∨ k' ∈ dictKeys d := by
  induction d with
  | nil => simp [pyDictInsert, dictKeys]
  | cons p t ih =>
    by_cases hp : p.1 = k
    · subst hp
      simp [pyDictInsert, dictKeys]
    · simp only [pyDictInsert, if_neg hp, dictKeys, List.map_cons,
        List.mem_cons]
      rw [dictKeys] at ih
      rw [ih]
      tauto

theorem nodup_dictKeys_pyDictInsert {β : Type} (d : List (Nat × β)) (k : Nat)
    (v : β) (h : (dictKeys d).Nodup) :
    (dictKeys (pyDictInsert d k v)).Nodup := by
  induction d with
  | nil => simp [pyDictInsert, dictKeys]
  | cons p t ih =>
    rw [dictKeys, List.map_cons, List.nodup_cons] at h
    by_cases hp : p.1 = k
    · subst hp
      simpa [pyDictInsert, dictKeys] using h
    · rw [pyDictInsert, if_neg hp, dictKeys, List.map_cons, List.nodup_cons]
      refine ⟨?_, ih h.2⟩
      intro hc
      rcases (mem_dictKeys_pyDictInsert t k p.1 v).mp hc with rfl | hc
      · exact hp rfl
      · exact h.1 hc

theorem pyGet_pyDictInsert_self {β : Type} (d : List (Nat × β)) (k : Nat)
    (v : β) : pyGet (pyDictInsert d k v) k = some v := by
  induction d with
  | nil => simp [pyDictInsert, pyGet]
  | cons p t ih =>
    by_cases hp : p.1 = k
    · simp [pyDictInsert, hp, pyGet]
    · rw [pyDictInsert, if_neg hp, pyGet, if_neg hp]
      exact ih

theorem pyGet_pyDictInsert_ne {β : Type} (d : List (Nat × β)) (k k' : Nat)
    (v : β) (h : k' ≠ k) : pyGet (pyDictInsert d k v) k' = pyGet d k' := by
  have hkk : ¬ (k = k') := fun hc => h hc.symm
  induction d with
  | nil => simp [pyDictInsert, pyGet, hkk]
  | cons p t ih =>
    by_cases hp : p.1 = k
    · simp [pyDictInsert, pyGet, hp, hkk]
    · simp only [pyDictInsert, if_neg hp, pyGet]
      split_ifs with hq
      · rfl
      · exact ih

theorem pyGet_eq_none_of_not_mem {β : Type} (d : List (Nat × β)) (k : Nat)
    (h : k ∉ dictKeys d) : pyGet d k = none := by
  induction d with
  | nil => rfl
  | cons p t ih =>
    rw [dictKeys, List.map_cons, List.mem_cons] at h
    push_neg at h
    rw [pyGet, if_neg (fun hc => h.1 hc.symm)]
    exact ih h.2

theorem pyGet_isSome_of_mem {β : Type} (d : List (Nat × β)) (k : Nat)
    (h : k ∈ dictKeys d) : (pyGet d k).isSome := by
  induction d with
  | nil => simp [dictKeys] at h
  | cons p t ih =>
    by_cases hp : p.1 = k
    · simp [pyGet, hp]
    · rw [pyGet, if_neg hp]
      rw [dictKeys, List.map_cons, List.mem_cons] at h
      exact ih (h.resolve_left (fun hc => hp hc.symm))

/-- Building a verdict dictionary over a candidate list, as the `dict`
comprehension / accumulation loops of `analyze_eligibility` do. -/
def buildVerdicts (f : Company → Bool) (cs : List Company)
    (d : List (Nat × Bool)) : List (Nat × Bool) :=
  cs.foldl (fun d c => pyDictInsert d c.id (f c)) d

theorem buildVerdicts_nil (f : Company → Bool) (d : List (Nat × Bool)) :
    buildVerdicts f [] d = d := rfl

theorem buildVerdicts_cons (f : Company → Bool) (c : Company)
    (cs : List Company) (d : List (Nat × Bool)) :
    buildVerdicts f (c :: cs) d = buildVerdicts f cs (pyDictInsert d c.id (f c)) :=
  rfl

theorem mem_dictKeys_buildVerdicts (f : Company → Bool) (cs : List Company)
    (d : List (Nat × Bool)) (k : Nat) :
    k ∈ dictKeys (buildVerdicts f cs d) ↔
      k ∈ dictKeys d ∨ k ∈ cs.map Company.id := by
  induction cs generalizing d with
  | nil => simp [buildVerdicts_nil]
  | cons c t ih =>
    rw [buildVerdicts_cons, ih, mem_dictKeys_pyDictInsert]
    simp only [List.map_cons, List.mem_cons]
    tauto

theorem nodup_dictKeys_buildVerdicts (f : Company → Bool) (cs : List Company)
    (d : List (Nat × Bool)) (h : (dictKeys d).Nodup) :
    (dictKeys (buildVerdicts f cs d)).Nodup := by
  induction cs generalizing d with
  | nil => exact h
  | cons c t ih =>
    rw [buildVerdicts_cons]
    exact ih _ (nodup_dictKeys_pyDictInsert d c.id (f c) h)

theorem pyGet_buildVerdicts_not_mem (f : Company → Bool) (cs : List Company)
    (d : List (Nat × Bool)) (k : Nat) (hk : k ∉ cs.map Company.id) :
    pyGet (buildVerdicts f cs d) k = pyGet d k := by
  induction cs generalizing d with
  | nil => rfl
  | cons c t ih =>
    simp only [List.map_cons, List.mem_cons] at hk
    push_neg at hk
    rw [buildVerdicts_cons, ih _ hk.2, pyGet_pyDictInsert_ne _ _ _ _ hk.1]

theorem pyGet_buildVerdicts_mem (f : Company → Bool) (cs : List Company)
    (d : List (Nat × Bool)) (c : Company) (hc : c ∈ cs)
    (hnd : (cs.map Company.id).Nodup) :
    pyGet (buildVerdicts f cs d) c.id = some (f c) := by
  induction cs generalizing d with
  | nil => simp at hc
  | cons c' t ih =>
    rw [List.map_cons, List.nodup_cons] at hnd
    rcases List.mem_cons.mp hc with rfl | hc
    · rw [buildVerdicts_cons,
        pyGet_buildVerdicts_not_mem f t _ c.id hnd.1,
        pyGet_pyDictInsert_self]
    · rw [buildVerdicts_cons]
      exact ih _ hc hnd.2

/-! ## Lemmas: list minimum and maximum -/

theorem foldl_min_le_init (xs : List ℚ) (a : ℚ) : xs.foldl min a ≤ a := by
  induction xs generalizing a with
  | nil => exact le_refl a
  | cons y ys ih => exact le_trans (ih (min a y)) (min_le_left a y)

theorem foldl_min_le_mem (xs : List ℚ) (a x : ℚ) (hx : x ∈ xs) :
    xs.foldl min a ≤ x := by
  induction xs generalizing a with
  | nil => simp at hx
  | cons y ys ih =>
    rcases List.mem_cons.mp hx with rfl | hx
    · exact le_trans (foldl_min_le_init ys (min a x)) (min_le_right a x)
    · exact ih (min a y) hx

theorem foldl_min_mem (xs : List ℚ) (a : ℚ) :
    xs.foldl min a = a ∨ xs.foldl min a ∈ xs := by
  induction xs generalizing a with
  | nil => exact Or.inl rfl
  | cons y ys ih =>
    rcases ih (min a y) with h | h
    · rcases min_choice a y with hm | hm
      · exact Or.inl (h.trans hm)
      · refine Or.inr ?_
        show List.foldl min (min a y) ys ∈ y :: ys
        rw [h, hm]
        exact List.mem_cons_self y ys
    · exact Or.inr (List.mem_cons_of_mem y h)

theorem init_le_foldl_max (xs : List ℚ) (a : ℚ) : a ≤ xs.foldl max a := by
  induction xs generalizing a with
  | nil => exact le_refl a
  | cons y ys ih => exact le_trans (le_max_left a y) (ih (max a y))

theorem mem_le_foldl_max (xs : List ℚ) (a x : ℚ) (hx : x ∈ xs) :
    x ≤ xs.foldl max a := by
  induction xs generalizing a with
  | nil => simp at hx
  | cons y ys ih =>
    rcases List.mem_cons.mp hx with rfl | hx
    · exact le_trans (le_max_right a x) (init_le_foldl_max ys (max a x))
    · exact ih (max a y) hx

theorem foldl_max_mem (xs : List ℚ) (a : ℚ) :
    xs.foldl max a = a ∨ xs.foldl max a ∈ xs := by
  induction xs generalizing a with
  | nil => exact Or.inl rfl
  | cons y ys ih =>
    rcases ih (max a y) with h | h
    · rcases max_choice a y with hm | hm
      · exact Or.inl (h.trans hm)
      · refine Or.inr ?_
        show List.foldl max (max a y) ys ∈ y :: ys
        rw [h, hm]
        exact List.mem_cons_self y ys
    · exact Or.inr (List.mem_cons_of_mem y h)

theorem listMin_le (l : List ℚ) (x : ℚ) (hx : x ∈ l) : listMin l ≤ x := by
  cases l with
  | nil => simp at hx
  | cons y ys =>
    rcases List.mem_cons.mp hx with rfl | hx
    · exact foldl_min_le_init ys x
    · exact foldl_min_le_mem ys y x hx

theorem le_listMax (l : List ℚ) (x : ℚ) (hx : x ∈ l) : x ≤ listMax l := by
  cases l with
  | nil => simp at hx
  | cons y ys =>
    rcases List.mem_cons.mp hx with rfl | hx
    · exact init_le_foldl_max ys x
    · exact mem_le_foldl_max ys y x hx

theorem listMin_mem (l : List ℚ) (h : l ≠ []) : listMin l ∈ l := by
  cases l with
  | nil => exact absurd rfl h
  | cons y ys =>
    show ys.foldl min y ∈ y :: ys
    rcases foldl_min_mem ys y with hm | hm
    · rw [hm]
      exact List.mem_cons_self y ys
    · exact List.mem_cons_of_mem y hm

theorem listMax_mem (l : List ℚ) (h : l ≠ []) : listMax l ∈ l := by
  cases l with
  | nil => exact absurd rfl h
  | cons y ys =>
    show ys.foldl max y ∈ y :: ys
    rcases foldl_max_mem ys y with hm | hm
    · rw [hm]
      exact List.mem_cons_self y ys
    · exact List.mem_cons_of_mem y hm

/-! ## Lemmas: score normalization and components -/

theorem listMin_le_listMax (l : List ℚ) (h : l ≠ []) : listMin l ≤ listMax l := by
  rcases List.exists_mem_of_ne_nil l h with ⟨x, hx⟩
  exact le_trans (listMin_le l x hx) (le_listMax l x hx)

theorem normalize_scores_length (scores : List ℚ) :
    (CompanyScorer.normalize_scores scores).length = scores.length := by
  rw [CompanyScorer.normalize_scores]
  split
  · exact List.length_replicate _ _
  · split
    · exact List.length_replicate _ _
    · exact List.length_map _ _

theorem normalize_scores_mem_bounds (scores : List ℚ) (x : ℚ)
    (hx : x ∈ CompanyScorer.normalize_scores scores) : 0 ≤ x ∧ x ≤ 1 := by
  rw [CompanyScorer.normalize_scores] at hx
  split at hx
  · rcases List.eq_of_mem_replicate hx with rfl
    exact ⟨zero_le_one, le_refl 1⟩
  · rename_i hne
    push_neg at hne
    split at hx
    · rcases List.eq_of_mem_replicate hx with rfl
      exact ⟨zero_le_one, le_refl 1⟩
    · rename_i hlt
      rcases List.mem_map.mp hx with ⟨s, hs, rfl⟩
      have hmin : listMin scores ≤ s := listMin_le scores s hs
      have hmax : s ≤ listMax scores := le_listMax scores s hs
      have hle : listMin scores ≤ listMax scores :=
        listMin_le_listMax scores hne.1
      have hpos : 0 < listMax scores - listMin scores := by
        rcases lt_or_eq_of_le hle with h | h
        · linarith
        · exact absurd h.symm hlt
      constructor
      · apply div_nonneg _ (le_of_lt hpos)
        linarith
      · rw [div_le_one hpos]
        linarith

/-- Values read by `s_scores[i]`-style indexing: an in-range index yields a
member of the list, an out-of-range one the default. -/
theorem getD_mem_or_default (l : List ℚ) (i : Nat) (d : ℚ) :
    l.getD i d ∈ l ∨ l.getD i d = d := by
  induction l generalizing i with
  | nil => exact Or.inr rfl
  | cons y ys ih =>
    cases i with
    | zero => exact Or.inl (List.mem_cons_self y ys)
    | succ j =>
      rcases ih j with h | h
      · exact Or.inl (List.mem_cons_of_mem y h)
      · exact Or.inr h

theorem calculate_cae_overlap_bounds (c : Company) (inc : Incentive) :
    0 ≤ CompanyScorer.calculate_cae_overlap c inc ∧
      CompanyScorer.calculate_cae_overlap c inc ≤ 1 := by
  rw [CompanyScorer.calculate_cae_overlap]
  split
  · exact ⟨le_refl 0, zero_le_one⟩
  · rename_i hne
    push_neg at hne
    split
    · rename_i hu
      constructor
      · positivity
      · rw [div_le_one (by exact_mod_cast hu)]
        exact_mod_cast Finset.card_le_card Finset.inter_subset_union
    · exact ⟨le_refl 0, zero_le_one⟩

theorem calculate_geographic_fit_cases (c : Company) :
    CompanyScorer.calculate_geographic_fit c = 0 ∨
      CompanyScorer.calculate_geographic_fit c = 1/2 ∨
      CompanyScorer.calculate_geographic_fit c = 1 := by
  rw [CompanyScorer.calculate_geographic_fit]
  split
  · exact Or.inr (Or.inr rfl)
  · split
    · exact Or.inl rfl
    · exact Or.inr (Or.inl rfl)

theorem calculate_org_capacity_bounds (c : Company) :
    0 ≤ CompanyScorer.calculate_org_capacity c ∧
      CompanyScorer.calculate_org_capacity c ≤ 1 := by
  rw [CompanyScorer.calculate_org_capacity]
  split
  · exact ⟨zero_le_one, le_refl 1⟩
  · split
    · exact ⟨zero_le_one, le_refl 1⟩
    · split
      · norm_num
      · split
        · norm_num
        · split
          · norm_num
          · norm_num

/-- Any feature row assembled by `score_companies` (for any normalized score
list) satisfies the documented component ranges, provided its semantic entry
does. -/
theorem scoring_row_ranges (inc : Incentive) (c : Company) (s : ℚ)
    (hs : 0 ≤ s ∧ s ≤ 1) :
    0 ≤ (CompanyScorer.scoring_row inc c s).s ∧
      (CompanyScorer.scoring_row inc c s).s ≤ 1 ∧
      0 ≤ (CompanyScorer.scoring_row inc c s).m ∧
      (CompanyScorer.scoring_row inc c s).m ≤ 1 ∧
      ((CompanyScorer.scoring_row inc c s).g = 0 ∨
        (CompanyScorer.scoring_row inc c s).g = 1/2 ∨
        (CompanyScorer.scoring_row inc c s).g = 1) ∧
      0 ≤ (CompanyScorer.scoring_row inc c s).o ∧
      (CompanyScorer.scoring_row inc c s).o ≤ 1 ∧
      0 ≤ (CompanyScorer.scoring_row inc c s).w ∧
      (CompanyScorer.scoring_row inc c s).w ≤ 1 := by
  refine ⟨hs.1, hs.2, (calculate_cae_overlap_bounds c inc).1,
    (calculate_cae_overlap_bounds c inc).2, calculate_geographic_fit_cases c,
    (calculate_org_capacity_bounds c).1, (calculate_org_capacity_bounds c).2,
    ?_, ?_⟩ <;>
  · rw [CompanyScorer.scoring_row]
    dsimp only
    split
    · norm_num
    · norm_num

/-- Membership characterization of the scorer's annotation pass: every output
pair is an input company annotated with its dictionary score and its feature
row at some semantic entry. -/
theorem attach_scores_mem (fs : List (Nat × ℚ)) (inc : Incentive)
    (s_scores : List ℚ) (i : Nat) (cs : List Company)
    (p : Company × ScoreRow)
    (hp : p ∈ CompanyScorer.attach_scores fs inc s_scores i cs) :
    ∃ c ∈ cs, ∃ j : Nat,
      p = ({ c with company_score := some ((pyGet fs c.id).getD 0) },
           CompanyScorer.scoring_row inc c (s_scores.getD j 0)) := by
  induction cs generalizing i with
  | nil => simp [CompanyScorer.attach_scores] at hp
  | cons c t ih =>
    rw [CompanyScorer.attach_scores] at hp
    rcases List.mem_cons.mp hp with rfl | hp
    · exact ⟨c, List.mem_cons_self c t, i, rfl⟩
    · rcases ih (i + 1) hp with ⟨c', hc', j, hj⟩
      exact ⟨c', List.mem_cons_of_mem c hc', j, hj⟩

/-- The annotation pass preserves the identifier sequence (and hence the
order) of its input. -/
theorem attach_scores_map_id (fs : List (Nat × ℚ)) (inc : Incentive)
    (s_scores : List ℚ) (i : Nat) (cs : List Company) :
    (CompanyScorer.attach_scores fs inc s_scores i cs).map
        (fun p => p.1.id) = cs.map Company.id := by
  induction cs generalizing i with
  | nil => rfl
  | cons c t ih =>
    rw [CompanyScorer.attach_scores, List.map_cons, List.map_cons, ih]

/-- The scores assigned by the annotation pass. -/
theorem attach_scores_map_score (fs : List (Nat × ℚ)) (inc : Incentive)
    (s_scores : List ℚ) (i : Nat) (cs : List Company) :
    (CompanyScorer.attach_scores fs inc s_scores i cs).map
        (fun p => p.1.company_score) =
      cs.map (fun c => some ((pyGet fs c.id).getD 0)) := by
  induction cs generalizing i with
  | nil => rfl
  | cons c t ih =>
    rw [CompanyScorer.attach_scores, List.map_cons, List.map_cons, ih]

/-! ## Lemmas: eligibility analysis -/

theorem all_false_eq_buildVerdicts (cs : List Company) :
    GeographicAnalyzer.all_false cs = buildVerdicts (fun _ => false) cs [] :=
  rfl

theorem final_result_false_of_not_success (m : List (String × Bool))
    (c : Company) (h : c.location_api_status ≠ some "success") :
    GeographicAnalyzer.final_result m c = false := by
  rw [GeographicAnalyzer.final_result, if_pos h]

theorem final_result_false_of_absent (m : List (String × Bool)) (c : Company)
    (h : pyGetStr m (toString c.id) = none) :
    GeographicAnalyzer.final_result m c = false := by
  rw [GeographicAnalyzer.final_result]
  split
  · rfl
  · rw [h]
    rfl

/-- Shape of every result of `analyze_eligibility`: a verdict dictionary over
exactly the supplied candidates, whose verdict function is `false` for every
candidate without a `success` location, for every candidate when the
reasoning response failed to parse, and for every candidate absent from the
parsed map. -/
theorem analyze_eligibility_shape (env : Env) (cs : List Company) (g : String) :
    ∃ f : Company → Bool,
      GeographicAnalyzer.analyze_eligibility env cs g = buildVerdicts f cs [] ∧
      ∀ c : Company,
        (c.location_api_status ≠ some "success" → f c = false) ∧
        (GeographicAnalyzer.geo_try_parse env
            (GeographicAnalyzer.company_data
              (GeographicAnalyzer.valid_location_companies cs)) g = none →
          f c = false) ∧
        (∀ m, GeographicAnalyzer.geo_try_parse env
            (GeographicAnalyzer.company_data
              (GeographicAnalyzer.valid_location_companies cs)) g = some m →
          pyGetStr m (toString c.id) = none → f c = false) := by
  rw [GeographicAnalyzer.analyze_eligibility]
  split
  · exact ⟨fun _ => false, rfl,
      fun c => ⟨fun _ => rfl, fun _ => rfl, fun _ _ _ => rfl⟩⟩
  · cases hp : GeographicAnalyzer.geo_try_parse env
        (GeographicAnalyzer.company_data
          (GeographicAnalyzer.valid_location_companies cs)) g with
    | none =>
      exact ⟨fun _ => false, rfl,
        fun c => ⟨fun _ => rfl, fun _ => rfl,
          fun m hm _ => Option.noConfusion hm⟩⟩
    | some m =>
      refine ⟨GeographicAnalyzer.final_result m, rfl, fun c => ⟨?_, ?_, ?_⟩⟩
      · exact final_result_false_of_not_success m c
      · intro hc
        exact Option.noConfusion hc
      · intro m' hm' habs
        injection hm' with h
        subst h
        exact final_result_false_of_absent m c habs

/-! ## Lemmas: the expansion loop -/

theorem top5_by_rerank_spec (l : List Company) :
    (top5_by_rerank l).length = min 5 l.length ∧
    (top5_by_rerank l).Pairwise
      (fun a b => b.rerank_score ≤ a.rerank_score) ∧
    ∃ rest : List Company,
      List.Perm l (top5_by_rerank l ++ rest) ∧
      ∀ x ∈ rest, ∀ y ∈ top5_by_rerank l,
        x.rerank_score ≤ y.rerank_score := by
  have hsorted := pairwise_pySortDesc (fun c => c.rerank_score) l
  have hsplit := List.take_append_drop 5
    (pySortDesc (fun c => c.rerank_score) l)
  refine ⟨?_, ?_, ?_⟩
  · rw [top5_by_rerank, List.length_take,
      length_pySortDesc (fun c => c.rerank_score) l]
  · exact hsorted.sublist (List.take_sublist 5 _)
  · refine ⟨(pySortDesc (fun c => c.rerank_score) l).drop 5, ?_, ?_⟩
    · have h1 := (pySortDesc_perm (fun c => c.rerank_score) l).symm
      rw [top5_by_rerank, hsplit]
      exact h1
    · intro x hx y hy
      have := List.pairwise_append.mp (hsplit ▸ hsorted)
      exact this.2.2 y hy x hx

theorem expansion_loop_length_le_5 (env : Env) (q g : String)
    (maxC step : Nat) (hstep : 0 < step) (st : LocState) (n : Nat)
    (fc : List Company) (m : Nat) (st' : LocState) (k : Nat)
    (h : expansion_loop env q g maxC step hstep st n =
      .finalized fc m st' k) :
    fc.length ≤ 5 := by
  rw [expansion_loop] at h
  split at h
  · split at h
    · exact absurd h (by simp)
    · rename_i iter _
      split at h
      · rename_i h5
        rcases LoopOutcome.finalized.injEq .. ▸ h with ⟨rfl, _, _, _⟩
        rw [top5_by_rerank, List.length_take]
        exact min_le_left 5 _
      · split at h
        · rename_i h5 _
          rcases LoopOutcome.finalized.injEq .. ▸ h with ⟨rfl, _, _, _⟩
          omega
        · split at h
          · rename_i fc' n' st'' k' heq
            rcases LoopOutcome.finalized.injEq .. ▸ h with ⟨rfl, _, _, _⟩
            exact expansion_loop_length_le_5 env q g maxC step hstep _ _
              fc' n' st'' k' heq
          · exact absurd h (by simp)
  · exact absurd h (by simp)
termination_by maxC + 1 - n
decreasing_by
  rename_i hn _ _ _ _ _ hmax _ _
  omega

theorem expansion_loop_iterations_le (env : Env) (q g : String)
    (maxC step : Nat) (hstep : 0 < step) (st : LocState) (n : Nat)
    (hn : n ≤ maxC) :
    (expansion_loop env q g maxC step hstep st n).iterations ≤
      (maxC - n) / step + 1 := by
  rw [expansion_loop, dif_pos hn]
  cases hit : run_iteration env q g st n with
  | none => simp [LoopOutcome.iterations]
  | some iter =>
    by_cases h5 : 5 ≤ iter.eligible_companies.length
    · simp [if_pos h5, LoopOutcome.iterations]
    · by_cases hmax : maxC ≤ n
      · simp [if_neg h5, if_pos hmax, LoopOutcome.iterations]
      · by_cases h2 : n + step ≤ maxC
        · have ih := expansion_loop_iterations_le env q g maxC step hstep
            iter.st (n + step) h2
          have hdiv : (maxC - n) / step = (maxC - (n + step)) / step + 1 := by
            rw [Nat.div_eq_sub_div hstep (by omega), Nat.sub_sub]
          simp only [if_neg h5, if_neg hmax]
          cases hrec : expansion_loop env q g maxC step hstep iter.st
              (n + step) with
          | finalized fc' n' st'' k' =>
            rw [hrec] at ih
            simp only [LoopOutcome.iterations] at ih ⊢
            omega
          | unbound st'' k' =>
            rw [hrec] at ih
            simp only [LoopOutcome.iterations] at ih ⊢
            omega
        · have hrec : expansion_loop env q g maxC step hstep iter.st
              (n + step) = .unbound iter.st 0 := by
            rw [expansion_loop, dif_neg h2]
          simp only [if_neg h5, if_neg hmax, hrec]
          simp [LoopOutcome.iterations]
termination_by maxC + 1 - n
decreasing_by omega

theorem expansion_loop_at_threshold (env : Env) (q g : String)
    (maxC step : Nat) (hstep : 0 < step) (st : LocState) (n : Nat)
    (iter : IterData) (hn : n ≤ maxC)
    (hit : run_iteration env q g st n = some iter)
    (h5 : 5 ≤ iter.eligible_companies.length) :
    expansion_loop env q g maxC step hstep st n =
      .finalized (top5_by_rerank iter.eligible_companies) n iter.st 1 := by
  rw [expansion_loop, dif_pos hn]
  simp only [hit, if_pos h5]

theorem score_companies_eq_some (env : Env) (companies : List Company)
    (incentive : Incentive) (sems : List ℚ) (out : List (Company × ScoreRow))
    (h : CompanyScorer.score_companies env companies incentive sems =
      some out) :
    out = CompanyScorer.attach_scores
      (CompanyScorer.compute_scores_with_llm env
        (CompanyScorer.scoring_rows incentive
          (CompanyScorer.normalize_scores sems) 0 companies))
      incentive (CompanyScorer.normalize_scores sems) 0 companies := by
  simp only [CompanyScorer.score_companies] at h
  split at h
  · exact (Option.some_injective _ h).symm
  · exact absurd h (by simp)

theorem getD_map_of_lt (f : ℚ → ℚ) (l : List ℚ) (i : Nat)
    (h : i < l.length) : (l.map f).getD i 0 = f (l.getD i 0) := by
  induction l generalizing i with
  | nil => simp at h
  | cons y ys ih =>
    cases i with
    | zero => rfl
    | succ j => exact ih j (by simpa using h)

/-! ## The claims -/

/-- C1: every finalized company set of the expansion loop has at most five
companies; and an iteration with at least five eligible candidates finalizes
immediately (one iteration, pool size unchanged) with exactly the five
highest-rerank eligible candidates in descending rerank order. -/
theorem C1_threshold_and_top5 :
    (∀ (env : Env) (q g : String) (maxC step : Nat) (hstep : 0 < step)
      (st : LocState) (n : Nat) (fc : List Company) (m : Nat)
      (st' : LocState) (k : Nat),
      expansion_loop env q g maxC step hstep st n = .finalized fc m st' k →
      fc.length ≤ 5) ∧
    (∀ (env : Env) (q g : String) (maxC step : Nat) (hstep : 0 < step)
      (st : LocState) (n : Nat) (iter : IterData),
      n ≤ maxC → run_iteration env q g st n = some iter →
      5 ≤ iter.eligible_companies.length →
      expansion_loop env q g maxC step hstep st n =
        .finalized (top5_by_rerank iter.eligible_companies) n iter.st 1 ∧
      (top5_by_rerank iter.eligible_companies).length = 5 ∧
      (top5_by_rerank iter.eligible_companies).Pairwise
        (fun a b => b.rerank_score ≤ a.rerank_score) ∧
      ∃ rest : List Company,
        List.Perm iter.eligible_companies
          (top5_by_rerank iter.eligible_companies ++ rest) ∧
        ∀ x ∈ rest, ∀ y ∈ top5_by_rerank iter.eligible_companies,
          x.rerank_score ≤ y.rerank_score) := by
  constructor
  · intro env q g maxC step hstep st n fc m st' k h
    exact expansion_loop_length_le_5 env q g maxC step hstep st n fc m st' k h
  · intro env q g maxC step hstep st n iter hn hit h5
    rcases top5_by_rerank_spec iter.eligible_companies with
      ⟨hlen, hsort, rest, hperm, hcross⟩
    exact ⟨expansion_loop_at_threshold env q g maxC step hstep st n iter hn
        hit h5,
      by rw [hlen]; exact min_eq_left h5,
      hsort, rest, hperm, hcross⟩

/-- C5: whenever the starting pool size is within `max_candidates` and the
expansion step is positive, the expansion loop executes at most
`⌈(max_candidates − initial) / step⌉ + 1` loop-body iterations (the source
instantiates `initial = 10` and `step = 10`). -/
theorem C5_iterations_bound (env : Env) (q g : String)
    (maxC step : Nat) (hstep : 0 < step) (st : LocState)
    (initial : Nat) (hinit : initial ≤ maxC) :
    (expansion_loop env q g maxC step hstep st initial).iterations ≤
      (maxC - initial + step - 1) / step + 1 := by
  refine le_trans
    (expansion_loop_iterations_le env q g maxC step hstep st initial hinit) ?_
  have h := Nat.div_le_div_right (c := step)
    (show maxC - initial ≤ maxC - initial + step - 1 by omega)
  omega

/-- C2: for a non-empty candidate list (with the candidates keyed by their
distinct identifiers), the eligibility decision contains exactly one entry
per supplied candidate identifier — including candidates excluded for
lacking a success-resolved location — and an identifier is mapped to `false`
whenever its location status is not `success`, whenever the whole reasoning
response fails to parse (exception, empty response, no JSON object, or
`json.loads` failure), and whenever it is absent from the parsed map. -/
theorem C2_eligibility_total_and_fail_closed (env : Env)
    (companies : List Company) (g : String) (hne : companies ≠ [])
    (hnd : (companies.map Company.id).Nodup) :
    (dictKeys (GeographicAnalyzer.analyze_eligibility env companies g)).Nodup ∧
    (∀ k : Nat,
      k ∈ dictKeys (GeographicAnalyzer.analyze_eligibility env companies g) ↔
        k ∈ companies.map Company.id) ∧
    (∀ c ∈ companies, c.location_api_status ≠ some "success" →
      pyGet (GeographicAnalyzer.analyze_eligibility env companies g) c.id =
        some false) ∧
    (GeographicAnalyzer.geo_try_parse env
        (GeographicAnalyzer.company_data
          (GeographicAnalyzer.valid_location_companies companies)) g = none →
      ∀ c ∈ companies,
        pyGet (GeographicAnalyzer.analyze_eligibility env companies g) c.id =
          some false) ∧
    (∀ m, GeographicAnalyzer.geo_try_parse env
        (GeographicAnalyzer.company_data
          (GeographicAnalyzer.valid_location_companies companies)) g =
          some m →
      ∀ c ∈ companies, pyGetStr m (toString c.id) = none →
        pyGet (GeographicAnalyzer.analyze_eligibility env companies g) c.id =
          some false) := by
  rcases analyze_eligibility_shape env companies g with ⟨f, heq, hf⟩
  rw [heq]
  refine ⟨nodup_dictKeys_buildVerdicts f companies []
      (by simp [dictKeys]), ?_, ?_, ?_, ?_⟩
  · intro k
    rw [mem_dictKeys_buildVerdicts]
    simp [dictKeys]
  · intro c hc hstat
    rw [pyGet_buildVerdicts_mem f companies [] c hc hnd, (hf c).1 hstat]
  · intro hp c hc
    rw [pyGet_buildVerdicts_mem f companies [] c hc hnd, (hf c).2.1 hp]
  · intro m hm c hc habs
    rw [pyGet_buildVerdicts_mem f companies [] c hc hnd,
      (hf c).2.2 m hm habs]

/-- C7: every feature row attached by the scorer lies in the documented
ranges: S, M, O, W in `[0, 1]` and G in `{0, 0.5, 1}`. -/
theorem C7_score_components_ranges (env : Env) (companies : List Company)
    (incentive : Incentive) (semantic_scores : List ℚ)
    (out : List (Company × ScoreRow))
    (h : CompanyScorer.score_companies env companies incentive
      semantic_scores = some out) :
    ∀ p ∈ out,
      0 ≤ p.2.s ∧ p.2.s ≤ 1 ∧ 0 ≤ p.2.m ∧ p.2.m ≤ 1 ∧
      (p.2.g = 0 ∨ p.2.g = 1/2 ∨ p.2.g = 1) ∧
      0 ≤ p.2.o ∧ p.2.o ≤ 1 ∧ 0 ≤ p.2.w ∧ p.2.w ≤ 1 := by
  intro p hp
  rw [score_companies_eq_some env companies incentive semantic_scores out h]
    at hp
  rcases attach_scores_mem _ _ _ _ _ _ hp with ⟨c, _, j, rfl⟩
  refine scoring_row_ranges incentive c _ ?_
  rcases getD_mem_or_default
      (CompanyScorer.normalize_scores semantic_scores) j 0 with hmem | hdef
  · exact normalize_scores_mem_bounds semantic_scores _ hmem
  · rw [hdef]
    exact ⟨le_refl 0, zero_le_one⟩

/-- C8: semantic-score normalization is min–max scaling into `[0, 1]`: the
length is preserved, every output lies in `[0, 1]`, a constant (in
particular singleton) input normalizes to all ones, and otherwise each entry
is `(s − min) / (max − min)`, sending the minimum to 0 and the maximum
to 1. -/
theorem C8_normalize_minmax (scores : List ℚ) :
    (CompanyScorer.normalize_scores scores).length = scores.length ∧
    (∀ x ∈ CompanyScorer.normalize_scores scores, 0 ≤ x ∧ x ≤ 1) ∧
    ((∀ x ∈ scores, ∀ y ∈ scores, x = y) →
      CompanyScorer.normalize_scores scores =
        List.replicate scores.length 1) ∧
    (listMin scores < listMax scores →
      CompanyScorer.normalize_scores scores =
        scores.map (fun s =>
          (s - listMin scores) / (listMax scores - listMin scores)) ∧
      ∀ i : Nat, i < scores.length →
        (scores.getD i 0 = listMin scores →
          (CompanyScorer.normalize_scores scores).getD i 0 = 0) ∧
        (scores.getD i 0 = listMax scores →
          (CompanyScorer.normalize_scores scores).getD i 0 = 1)) := by
  refine ⟨normalize_scores_length scores,
    normalize_scores_mem_bounds scores, ?_, ?_⟩
  · intro hall
    rw [CompanyScorer.normalize_scores]
    split
    · rfl
    · rename_i hne
      push_neg at hne
      split
      · rfl
      · rename_i hmm
        exact absurd
          (hall (listMax scores) (listMax_mem scores hne.1)
            (listMin scores) (listMin_mem scores hne.1)) hmm
  · intro hlt
    have hne : scores ≠ [] := by
      intro hnil
      rw [hnil] at hlt
      exact absurd hlt (by norm_num [listMin, listMax])
    have hlen1 : scores.length ≠ 1 := by
      intro h1
      rcases List.length_eq_one.mp h1 with ⟨x, rfl⟩
      exact absurd hlt (by norm_num [listMin, listMax])
    have heq : CompanyScorer.normalize_scores scores =
        scores.map (fun s =>
          (s - listMin scores) / (listMax scores - listMin scores)) := by
      rw [CompanyScorer.normalize_scores,
        if_neg (by push_neg; exact ⟨hne, hlen1⟩), if_neg hlt.ne']
    refine ⟨heq, ?_⟩
    intro i hi
    rw [heq, getD_map_of_lt _ scores i hi]
    constructor
    · intro hmin
      rw [hmin, sub_self, zero_div]
    · intro hmax
      have hne2 : listMax scores - listMin scores ≠ 0 := by
        intro hc
        rw [sub_eq_zero] at hc
        exact hlt.ne hc.symm
      rw [hmax, div_self hne2]

/-! ## Lemmas: location service and finalization -/

theorem save_company_location_mem_id (table : List CompanyRow)
    (loc : CompanyLocation) (r : CompanyRow)
    (hr : r ∈ DatabaseManager.save_company_location table loc)
    (hid : r.company_id = loc.company_id) :
    r.location_lat = loc.latitude ∧ r.location_lon = loc.longitude ∧
    r.location_address = loc.formatted_address ∧
    r.location_api_status = some loc.api_status := by
  rcases List.mem_map.mp hr with ⟨r0, _, rfl⟩
  by_cases h0 : r0.company_id == loc.company_id
  · rw [if_pos h0]
    exact ⟨rfl, rfl, rfl, rfl⟩
  · rw [if_neg h0] at hid
    exact absurd (by simp [hid]) h0

theorem save_company_location_preserves_ids (table : List CompanyRow)
    (loc : CompanyLocation) (cid : Nat)
    (h : ∃ r ∈ table, r.company_id = cid) :
    ∃ r ∈ DatabaseManager.save_company_location table loc,
      r.company_id = cid := by
  rcases h with ⟨r, hr, hid⟩
  rw [DatabaseManager.save_company_location]
  refine ⟨_, List.mem_map.mpr ⟨r, hr, rfl⟩, ?_⟩
  dsimp only
  split
  · exact hid
  · exact hid

theorem mem_flag_geo_eligible (l : List Company) (c : Company)
    (hc : c ∈ flag_geo_eligible l) : c.geo_eligible = true := by
  rcases List.mem_map.mp hc with ⟨c0, _, rfl⟩
  rfl

theorem calculate_geographic_fit_of_eligible (c : Company)
    (h : c.geo_eligible = true) :
    CompanyScorer.calculate_geographic_fit c = 1 := by
  rw [CompanyScorer.calculate_geographic_fit, if_pos h]

theorem save_scored_results_mem (cs : List (Company × ScoreRow)) (r : Nat)
    (e : ScoredEntry) (he : e ∈ save_scored_results cs r) :
    ∃ p ∈ cs, e.score_components = p.2 := by
  induction cs generalizing r with
  | nil => simp [save_scored_results] at he
  | cons p t ih =>
    rw [save_scored_results] at he
    rcases List.mem_cons.mp he with rfl | he
    · exact ⟨p, List.mem_cons_self p t, rfl⟩
    · rcases ih (r + 1) he with ⟨p', hp', hcomp⟩
      exact ⟨p', List.mem_cons_of_mem p hp', hcomp⟩

theorem finalize_stage_eq_some (env : Env) (inc : Incentive)
    (final : List Company) (pr : List Company × List (Company × ScoreRow))
    (h : finalize_stage env inc final = some pr) :
    ∃ scored, CompanyScorer.score_companies env (flag_geo_eligible final) inc
        (final.map (fun c => c.rerank_score)) = some scored ∧
      pr = (flag_geo_eligible final,
        pySortDesc (fun p => p.1.company_score.getD 0) scored) := by
  simp only [finalize_stage] at h
  split at h
  · exact absurd h (by simp)
  · rename_i scored heq
    exact ⟨scored, heq, (Option.some_injective _ h).symm⟩

theorem find_matching_companies_eq_some (env : Env) (inc : Incentive)
    (maxC : Nat) (st : LocState) (out : RunOutput)
    (h : find_matching_companies env inc maxC st = some out) :
    ∃ (final : List Company) (n : Nat) (st' : LocState) (k : Nat),
      expansion_loop env (create_search_query inc) inc.geo_requirement maxC
        10 (by decide) st 10 = .finalized final n st' k ∧
      ∃ flagged scored_sorted,
        finalize_stage env inc final = some (flagged, scored_sorted) ∧
        out.companies = save_matching_results flagged 1 ∧
        out.scored = save_scored_results scored_sorted 1 := by
  simp only [find_matching_companies] at h
  split at h
  · exact absurd h (by simp)
  · rename_i final n st' k heq
    split at h
    · exact absurd h (by simp)
    · rename_i flagged scored_sorted heq2
      refine ⟨final, n, st', k, heq, flagged, scored_sorted, heq2, ?_, ?_⟩
      · rw [← (Option.some_injective _ h)]
      · rw [← (Option.some_injective _ h)]

theorem get_company_location_memory_hit (env : Env) (st : LocState)
    (cid : Nat) (nm : String) (loc : CompanyLocation)
    (hm : pyGet st.memory_cache cid = some loc) :
    LocationService.get_company_location env st cid nm = (loc, st) := by
  rw [LocationService.get_company_location, hm]

theorem get_company_location_db_hit (env : Env) (st : LocState)
    (cid : Nat) (nm : String) (cached : CompanyLocation)
    (hm : pyGet st.memory_cache cid = none)
    (hd : DatabaseManager.get_company_location st.table cid = some cached) :
    LocationService.get_company_location env st cid nm =
      ({ cached with api_status := "cached" },
       { st with memory_cache :=
                   pyDictInsert st.memory_cache cid
                     ({ cached with api_status := "cached" }) }) := by
  rw [LocationService.get_company_location, hm, hd]

theorem get_company_location_fresh (env : Env) (st : LocState)
    (cid : Nat) (nm : String)
    (hm : pyGet st.memory_cache cid = none)
    (hd : DatabaseManager.get_company_location st.table cid = none) :
    LocationService.get_company_location env st cid nm =
      ({ env.gmaps cid nm with company_id := cid },
       { memory_cache :=
           pyDictInsert st.memory_cache cid
             ({ env.gmaps cid nm with company_id := cid })
         table :=
           DatabaseManager.save_company_location st.table
             ({ env.gmaps cid nm with company_id := cid })
         api_calls := st.api_calls + 1 }) := by
  rw [LocationService.get_company_location, hm, hd]

/-- After any resolution, the memory cache holds the returned record. -/
theorem get_company_location_caches (env : Env) (st : LocState) (cid : Nat)
    (nm : String) :
    pyGet (LocationService.get_company_location env st cid nm).2.memory_cache
      cid = some (LocationService.get_company_location env st cid nm).1 := by
  cases hm : pyGet st.memory_cache cid with
  | some loc => rw [get_company_location_memory_hit env st cid nm loc hm, hm]
  | none =>
    cases hd : DatabaseManager.get_company_location st.table cid with
    | some cached =>
      rw [get_company_location_db_hit env st cid nm cached hm hd]
      exact pyGet_pyDictInsert_self st.memory_cache cid _
    | none =>
      rw [get_company_location_fresh env st cid nm hm hd]
      exact pyGet_pyDictInsert_self st.memory_cache cid _

/-- C9: within one run, a repeated resolution of the same identifier is
served from the in-process cache — the second call returns the first call's
record and leaves the state (in particular the external-call counter)
untouched; the two calls together make at most one external geocoding call;
and a fresh resolution (miss in both cache tiers) makes exactly one external
call and writes its outcome, success or failure, to both the in-process
cache and the persistent `companies` table. -/
theorem C9_location_caching (env : Env) (st : LocState) (cid : Nat)
    (nm nm' : String) :
    pyGet (LocationService.get_company_location env st cid nm).2.memory_cache
      cid = some (LocationService.get_company_location env st cid nm).1 ∧
    LocationService.get_company_location env
      (LocationService.get_company_location env st cid nm).2 cid nm' =
      ((LocationService.get_company_location env st cid nm).1,
       (LocationService.get_company_location env st cid nm).2) ∧
    (LocationService.get_company_location env st cid nm).2.api_calls ≤
      st.api_calls + 1 ∧
    (pyGet st.memory_cache cid = none →
     DatabaseManager.get_company_location st.table cid = none →
     (LocationService.get_company_location env st cid nm).2.api_calls =
       st.api_calls + 1 ∧
     ((∃ r ∈ st.table, r.company_id = cid) →
       ∃ r ∈ (LocationService.get_company_location env st cid nm).2.table,
         r.company_id = cid) ∧
     ∀ r ∈ (LocationService.get_company_location env st cid nm).2.table,
       r.company_id = cid →
       r.location_lat =
         (LocationService.get_company_location env st cid nm).1.latitude ∧
       r.location_lon =
         (LocationService.get_company_location env st cid nm).1.longitude ∧
       r.location_address =
         ((LocationService.get_company_location env st cid nm).1).formatted_address ∧
       r.location_api_status =
         some (((LocationService.get_company_location env st cid nm).1).api_status)) := by
  refine ⟨get_company_location_caches env st cid nm,
    get_company_location_memory_hit env _ cid nm' _
      (get_company_location_caches env st cid nm), ?_, ?_⟩
  · cases hm : pyGet st.memory_cache cid with
    | some loc =>
      rw [get_company_location_memory_hit env st cid nm loc hm]
      dsimp only
      omega
    | none =>
      cases hd : DatabaseManager.get_company_location st.table cid with
      | some cached =>
        rw [get_company_location_db_hit env st cid nm cached hm hd]
        dsimp only
        omega
      | none =>
        rw [get_company_location_fresh env st cid nm hm hd]
  · intro hm hd
    rw [get_company_location_fresh env st cid nm hm hd]
    refine ⟨rfl, ?_, ?_⟩
    · intro hex
      exact save_company_location_preserves_ids st.table _ cid hex
    · intro r hr hid
      exact save_company_location_mem_id st.table _ r hr hid

/-- C10: the orchestrator marks every finalized company geo-eligible before
scoring, and consequently every entry of the persisted score-ranked result
carries geographic-fit component exactly `1` (the `0` and `0.5` branches are
unreachable there). -/
theorem C10_persisted_scored_geo_fit :
    (∀ (l : List Company), ∀ c ∈ flag_geo_eligible l,
      c.geo_eligible = true) ∧
    (∀ (env : Env) (inc : Incentive) (maxC : Nat) (st : LocState)
      (out : RunOutput),
      find_matching_companies env inc maxC st = some out →
      ∀ e ∈ out.scored, e.score_components.g = 1) := by
  refine ⟨mem_flag_geo_eligible, ?_⟩
  intro env inc maxC st out h e he
  rcases find_matching_companies_eq_some env inc maxC st out h with
    ⟨final, n, st', k, _, flagged, scored_sorted, hfin, _, hscored⟩
  rcases finalize_stage_eq_some env inc final (flagged, scored_sorted) hfin
    with ⟨scored, hscore, hpr⟩
  rcases Prod.mk.injEq .. ▸ hpr with ⟨_, hsnd⟩
  rw [hscored, hsnd] at he
  rcases save_scored_results_mem _ 1 e he with ⟨p, hp, hcomp⟩
  have hp2 : p ∈ scored := (mem_pySortDesc _ scored p).mp hp
  rw [score_companies_eq_some env (flag_geo_eligible final) inc
    (final.map (fun c => c.rerank_score)) scored hscore] at hp2
  rcases attach_scores_mem _ _ _ _ _ _ hp2 with ⟨c, hc, j, rfl⟩
  rw [hcomp]
  exact calculate_geographic_fit_of_eligible c (mem_flag_geo_eligible final c hc)

theorem pairwise_of_all {α : Type} (R : α → α → Prop) (l : List α)
    (h : ∀ x ∈ l, ∀ y ∈ l, R x y) : l.Pairwise R := by
  induction l with
  | nil => exact List.Pairwise.nil
  | cons a t ih =>
    refine List.pairwise_cons.mpr ⟨?_, ?_⟩
    · intro y hy
      exact h a (List.mem_cons_self a t) y (List.mem_cons_of_mem a hy)
    · exact ih (fun x hx y hy =>
        h x (List.mem_cons_of_mem a hx) y (List.mem_cons_of_mem a hy))

/-- Every failure mode of the final-score reasoning call — an exception
during the call, no JSON object in the reply, or a `json.loads` / conversion
failure — produces the empty score dictionary. -/
theorem compute_scores_with_llm_fail (env : Env) (rows : List ScoreRow)
    (hfail : env.scoreResp rows = none ∨
      (∃ raw, env.scoreResp rows = some raw ∧
        (GeographicAnalyzer.extract_json (pyStrip raw) = none ∨
         ∃ j, GeographicAnalyzer.extract_json (pyStrip raw) = some j ∧
           env.scoreLoads j = none))) :
    CompanyScorer.compute_scores_with_llm env rows = [] := by
  rw [CompanyScorer.compute_scores_with_llm]
  rcases hfail with hnone | ⟨raw, hraw, hcase⟩
  · rw [hnone]
  · rw [hraw]
    rcases hcase with hext | ⟨j, hj, hload⟩
    · simp only [hext]
    · simp only [hj, hload]

/-- C6 (amended): when the final-score reasoning reply fails to parse as a
numeric map, the scorer assigns the fallback FinalScore `0.0` to every
company — the field is set to the default `0.0`, not left absent — and the
caller retains the semantic ranking as authoritative: the stable sort on the
all-equal fallback scores leaves the scored list in the finalized
(semantic) order. -/
theorem C6_scoring_fallback_keeps_order (env : Env) (inc : Incentive)
    (final : List Company)
    (hfail : env.scoreResp (CompanyScorer.scoring_rows inc
        (CompanyScorer.normalize_scores
          (final.map (fun c => c.rerank_score))) 0
        (flag_geo_eligible final)) = none ∨
      (∃ raw, env.scoreResp (CompanyScorer.scoring_rows inc
          (CompanyScorer.normalize_scores
            (final.map (fun c => c.rerank_score))) 0
          (flag_geo_eligible final)) = some raw ∧
        (GeographicAnalyzer.extract_json (pyStrip raw) = none ∨
         ∃ j, GeographicAnalyzer.extract_json (pyStrip raw) = some j ∧
           env.scoreLoads j = none))) :
    ∃ scored,
      finalize_stage env inc final = some (flag_geo_eligible final, scored) ∧
      scored.map (fun p => p.1.company_score) =
        List.replicate final.length (some 0) ∧
      scored.map (fun p => p.1.id) = final.map Company.id := by
  have hflen : (flag_geo_eligible final).length = final.length := by
    rw [flag_geo_eligible, List.length_map]
  have hgate : (flag_geo_eligible final).length ≤
      (CompanyScorer.normalize_scores
        (final.map (fun c => c.rerank_score))).length := by
    rw [normalize_scores_length, List.length_map, hflen]
  have hcompute : CompanyScorer.compute_scores_with_llm env
      (CompanyScorer.scoring_rows inc
        (CompanyScorer.normalize_scores
          (final.map (fun c => c.rerank_score))) 0
        (flag_geo_eligible final)) = [] :=
    compute_scores_with_llm_fail env _ hfail
  have hscore : CompanyScorer.score_companies env (flag_geo_eligible final)
      inc (final.map (fun c => c.rerank_score)) =
      some (CompanyScorer.attach_scores [] inc
        (CompanyScorer.normalize_scores
          (final.map (fun c => c.rerank_score))) 0
        (flag_geo_eligible final)) := by
    simp only [CompanyScorer.score_companies, if_pos hgate, hcompute]
  have hscores_map : (CompanyScorer.attach_scores [] inc
      (CompanyScorer.normalize_scores
        (final.map (fun c => c.rerank_score))) 0
      (flag_geo_eligible final)).map (fun p => p.1.company_score) =
      List.replicate final.length (some 0) := by
    rw [attach_scores_map_score]
    rw [show (fun c : Company => some ((pyGet ([] : List (Nat × ℚ)) c.id).getD 0))
        = (fun _ : Company => some (0 : ℚ)) from rfl]
    rw [List.map_const', hflen]
  have hall0 : ∀ p ∈ CompanyScorer.attach_scores [] inc
      (CompanyScorer.normalize_scores
        (final.map (fun c => c.rerank_score))) 0
      (flag_geo_eligible final), p.1.company_score = some 0 := by
    intro p hp
    have hmem := List.mem_map_of_mem (fun q : Company × ScoreRow =>
      q.1.company_score) hp
    rw [hscores_map] at hmem
    exact List.eq_of_mem_replicate hmem
  have hsorted : pySortDesc (fun p => p.1.company_score.getD 0)
      (CompanyScorer.attach_scores [] inc
        (CompanyScorer.normalize_scores
          (final.map (fun c => c.rerank_score))) 0
        (flag_geo_eligible final)) =
      CompanyScorer.attach_scores [] inc
        (CompanyScorer.normalize_scores
          (final.map (fun c => c.rerank_score))) 0
        (flag_geo_eligible final) := by
    refine pySortDesc_of_sorted _ _ (pairwise_of_all _ _ ?_)
    intro x hx y hy
    rw [hall0 x hx, hall0 y hy]
  refine ⟨CompanyScorer.attach_scores [] inc
      (CompanyScorer.normalize_scores
        (final.map (fun c => c.rerank_score))) 0
      (flag_geo_eligible final), ?_, hscores_map, ?_⟩
  · simp only [finalize_stage, hscore, hsorted]
  · rw [attach_scores_map_id]
    rw [flag_geo_eligible, List.map_map]
    rfl

/-! ## Concrete instances -/

/-- An environment whose vector index returns no results and whose reasoning
capability always fails. -/
def envEmpty : Env :=
  { search := fun _ _ => []
    rerank := fun _ _ => 0
    gmaps := fun cid _ =>
      { company_id := cid, latitude := none, longitude := none,
        formatted_address := none, api_status := "not_found" }
    geoResp := fun _ _ => none
    geoLoads := fun _ => none
    scoreResp := fun _ => none
    scoreLoads := fun _ => none }

/-- A run state over an empty companies table. -/
def stEmpty : LocState := { table := [] }

/-- A small demo incentive (`create_search_query` yields `"q"`). -/
def incDemo : Incentive :=
  { id := 1, title := "T", sector := some "q", geo_requirement := "Norte" }

/-- A companies-table row with no cached location data. -/
def rowN (i : Nat) : CompanyRow :=
  { company_id := i, company_name := "Empresa", cae_primary_label := none,
    trade_description_native := none, website := none }

/-- A run state with five companies, none of them located yet. -/
def stFive : LocState :=
  { table := [rowN 1, rowN 2, rowN 3, rowN 4, rowN 5] }

/-- An environment where retrieval returns five candidates, geocoding
succeeds with an address, and the eligibility reasoning marks all five
eligible; the scoring reasoning fails. -/
def envFive : Env :=
  { search := fun _ _ => [⟨1, 9⟩, ⟨2, 8⟩, ⟨3, 7⟩, ⟨4, 6⟩, ⟨5, 5⟩]
    rerank := fun _ _ => 3
    gmaps := fun cid _ =>
      { company_id := cid, latitude := none, longitude := none,
        formatted_address := some "Porto, Portugal", api_status := "success" }
    geoResp := fun _ _ => some "\x7bok\x7d"
    geoLoads := fun _ =>
      some [("1", true), ("2", true), ("3", true), ("4", true), ("5", true)]
    scoreResp := fun _ => none
    scoreLoads := fun _ => none }

/-- The single iteration of the expansion loop under `envFive`. -/
def iterFive : IterData :=
  (run_iteration envFive "q" "Norte" stFive 10).getD ⟨[], [], stFive⟩

/-- A bare candidate with no location fields. -/
def cPlain : Company := { id := 1, name := "X" }

/-- A candidate with a successfully resolved location. -/
def cSucc : Company :=
  { id := 3, name := "C", formatted_address := some "Lisboa, Portugal",
    location_api_status := some "success" }

/-- A candidate with no resolved location. -/
def cNoLoc : Company := { id := 2, name := "B" }

/-- A minimal incentive for the scorer. -/
def incPlain : Incentive := { id := 1, title := "T", geo_requirement := "Norte" }

/-- A companies-table row holding a prior `success` resolution with both
coordinates and an address. -/
def rowCached : CompanyRow :=
  { company_id := 7, company_name := "ACME LDA",
    cae_primary_label := some "Atividades", trade_description_native := some "acts",
    website := some "acme.example",
    location_lat := some 387, location_lon := some (-91),
    location_address := some "Rua A 1, Lisboa, Portugal",
    location_api_status := some "success" }

/-- A run state whose persistent cache holds `rowCached`. -/
def stCached : LocState := { table := [rowCached] }

/-- An environment retrieving exactly the cached company, whose eligibility
reasoning would mark it eligible if consulted. -/
def envCached : Env :=
  { search := fun _ _ => [⟨7, 9⟩]
    rerank := fun _ _ => 3
    gmaps := fun cid _ =>
      { company_id := cid, latitude := none, longitude := none,
        formatted_address := none, api_status := "api_error" }
    geoResp := fun _ _ => some "\x7b\x22\x37\x22: true\x7d"
    geoLoads := fun _ => some [("7", true)]
    scoreResp := fun _ => none
    scoreLoads := fun _ => none }

/-! ## Remaining claims and witnesses -/

/-- C3 (code bug evidence): with an empty vector-search result the expansion
loop exits without ever assigning `final_companies` (the `unbound` outcome:
the Python code then raises `UnboundLocalError` instead of finalizing with
an empty set), the run dies, and the batch driver counts the incentive as
an outright failure rather than a non-fatal skip. -/
theorem C3_retrieval_failure_crashes :
    expansion_loop envEmpty "q" "Norte" 50 10 (by decide) stEmpty 10 =
      .unbound stEmpty 1 ∧
    find_matching_companies envEmpty incDemo 50 stEmpty = none ∧
    batch_incentive_outcome
      (find_matching_companies envEmpty incDemo 50 stEmpty) = .failed := by
  have hloop : expansion_loop envEmpty (create_search_query incDemo)
      incDemo.geo_requirement 50 10 (by decide) stEmpty 10 =
      .unbound stEmpty 1 := by
    rw [expansion_loop, dif_pos (by norm_num)]
    rfl
  have hfind : find_matching_companies envEmpty incDemo 50 stEmpty = none := by
    simp only [find_matching_companies, hloop]
  refine ⟨hloop, hfind, ?_⟩
  rw [hfind]
  rfl

/-- C4 (code bug evidence): a candidate served from the persistent cache
whose record derives from a prior `success` resolution — carrying both
coordinates and an address — comes back with status `"cached"`, is excluded
from the reasoning call in Step 1 of the eligibility evaluation, is marked
ineligible even though the reasoning oracle would answer `true` for it, and
is scored with the "unknown location" geographic fit `0.5`. -/
theorem C4_cached_success_not_trusted :
    ((LocationService.get_company_location envCached stCached 7
        "ACME LDA").1).api_status = "cached" ∧
    ((LocationService.get_company_location envCached stCached 7
        "ACME LDA").1).latitude = some 387 ∧
    ((LocationService.get_company_location envCached stCached 7
        "ACME LDA").1).formatted_address = some "Rua A 1, Lisboa, Portugal" ∧
    (run_iteration envCached "q" "Norte" stCached 10).map
      (fun it => GeographicAnalyzer.valid_location_companies
        it.companies_with_locations) = some [] ∧
    (run_iteration envCached "q" "Norte" stCached 10).map
      (fun it => GeographicAnalyzer.analyze_eligibility envCached
        it.companies_with_locations "Norte") = some [(7, false)] ∧
    (run_iteration envCached "q" "Norte" stCached 10).map
      (fun it => it.eligible_companies) = some [] ∧
    (run_iteration envCached "q" "Norte" stCached 10).map
      (fun it => it.companies_with_locations.map
        CompanyScorer.calculate_geographic_fit) = some [1/2] := by
  refine ⟨rfl, rfl, rfl, rfl, rfl, rfl, rfl⟩

/-- C6 counterexample: at this concrete input the scoring reasoning call
fails, yet the scorer does not leave FinalScore unset — the company's
`company_score` is set to `0.0` rather than remaining absent. -/
theorem C6_counterexample_score_is_set :
    ((CompanyScorer.score_companies envEmpty [cPlain] incPlain [3]).getD
        []).map (fun p => p.1.company_score) = [some 0] ∧
    ((CompanyScorer.score_companies envEmpty [cPlain] incPlain [3]).getD
        []).map (fun p => p.1.company_score) ≠ [none] := by
  have h : ((CompanyScorer.score_companies envEmpty [cPlain] incPlain
      [3]).getD []).map (fun p => p.1.company_score) = [some 0] := rfl
  refine ⟨h, ?_⟩
  rw [h]
  simp

/-- Witness for C1 at a concrete run: five candidates retrieved, all five
eligible, so the loop finalizes in this very iteration with the top five by
rerank score. -/
theorem C1_witness :
    expansion_loop envFive "q" "Norte" 50 10 (by decide) stFive 10 =
      .finalized (top5_by_rerank iterFive.eligible_companies) 10
        iterFive.st 1 ∧
    (top5_by_rerank iterFive.eligible_companies).length = 5 := by
  have h := C1_threshold_and_top5.2 envFive "q" "Norte" 50 10 (by decide)
    stFive 10 iterFive (by decide) rfl (by decide)
  exact ⟨h.1, h.2.1⟩

/-- Witness for C2 at a concrete input: one unresolved and one resolved
candidate, reasoning reply failing to parse — both default to `false` and
the decision has one entry per identifier. -/
theorem C2_witness :
    pyGet (GeographicAnalyzer.analyze_eligibility envEmpty [cNoLoc, cSucc]
      "Norte") 2 = some false ∧
    pyGet (GeographicAnalyzer.analyze_eligibility envEmpty [cNoLoc, cSucc]
      "Norte") 3 = some false ∧
    (dictKeys (GeographicAnalyzer.analyze_eligibility envEmpty
      [cNoLoc, cSucc] "Norte")).Nodup := by
  have h := C2_eligibility_total_and_fail_closed envEmpty [cNoLoc, cSucc]
    "Norte" (by decide) (by decide)
  exact ⟨h.2.2.1 cNoLoc (by decide) (by decide),
    h.2.2.2.1 rfl cSucc (by decide), h.1⟩

/-- Witness for C5 at concrete parameters. -/
theorem C5_witness :
    (expansion_loop envEmpty "q" "Norte" 50 10 (by decide) stEmpty
      10).iterations ≤ (50 - 10 + 10 - 1) / 10 + 1 :=
  C5_iterations_bound envEmpty "q" "Norte" 50 10 (by decide) stEmpty 10
    (by decide)

/-- The scored output of the scorer at the C7 witness input. -/
def scoredDemo : List (Company × ScoreRow) :=
  (CompanyScorer.score_companies envEmpty [cPlain] incPlain [3]).getD []

/-- A placeholder feature row. -/
def zeroRow : ScoreRow :=
  { company_id := 0, s := 0, m := 0, g := 0, o := 0, org_direction := 0,
    w := 0 }

/-- Witness for C7 at a concrete scored company. -/
theorem C7_witness :
    0 ≤ (scoredDemo.headD (cPlain, zeroRow)).2.s ∧
    (scoredDemo.headD (cPlain, zeroRow)).2.s ≤ 1 ∧
    0 ≤ (scoredDemo.headD (cPlain, zeroRow)).2.m ∧
    (scoredDemo.headD (cPlain, zeroRow)).2.m ≤ 1 ∧
    ((scoredDemo.headD (cPlain, zeroRow)).2.g = 0 ∨
      (scoredDemo.headD (cPlain, zeroRow)).2.g = 1/2 ∨
      (scoredDemo.headD (cPlain, zeroRow)).2.g = 1) ∧
    0 ≤ (scoredDemo.headD (cPlain, zeroRow)).2.o ∧
    (scoredDemo.headD (cPlain, zeroRow)).2.o ≤ 1 ∧
    0 ≤ (scoredDemo.headD (cPlain, zeroRow)).2.w ∧
    (scoredDemo.headD (cPlain, zeroRow)).2.w ≤ 1 :=
  C7_score_components_ranges envEmpty [cPlain] incPlain [3] scoredDemo rfl
    (scoredDemo.headD (cPlain, zeroRow))
    (by exact List.mem_cons_self _ _)

/-- Witness for C8 at concrete score lists: a two-element list is min–max
scaled, a constant list normalizes to all ones. -/
theorem C8_witness :
    (CompanyScorer.normalize_scores [3, 1]).length =
      ([3, 1] : List ℚ).length ∧
    CompanyScorer.normalize_scores [3, 1] =
      ([3, 1] : List ℚ).map (fun s =>
        (s - listMin [3, 1]) / (listMax [3, 1] - listMin [3, 1])) ∧
    CompanyScorer.normalize_scores [2, 2] =
      List.replicate ([2, 2] : List ℚ).length 1 :=
  ⟨(C8_normalize_minmax [3, 1]).1,
   ((C8_normalize_minmax [3, 1]).2.2.2 (by decide)).1,
   (C8_normalize_minmax [2, 2]).2.2.1 (by decide)⟩

/-- A run state holding one company row with no cached location. -/
def stOneRow : LocState := { table := [rowN 1] }

/-- Witness for C9 at a concrete fresh resolution: the second call is served
from the in-process cache and exactly one external call is made. -/
theorem C9_witness :
    LocationService.get_company_location envFive
      (LocationService.get_company_location envFive stOneRow 1
        "Empresa").2 1 "Empresa" =
      ((LocationService.get_company_location envFive stOneRow 1
          "Empresa").1,
       (LocationService.get_company_location envFive stOneRow 1
          "Empresa").2) ∧
    (LocationService.get_company_location envFive stOneRow 1
      "Empresa").2.api_calls = stOneRow.api_calls + 1 := by
  have h := C9_location_caching envFive stOneRow 1 "Empresa" "Empresa"
  exact ⟨h.2.1, (h.2.2.2 rfl rfl).1⟩

/-- The finalized set of the `envFive` run. -/
def finalFive : List Company := top5_by_rerank iterFive.eligible_companies

/-- The persisted output of the `envFive` run. -/
def outDemo : RunOutput :=
  match finalize_stage envFive incDemo finalFive with
  | none =>
    { incentive_id := 0, companies := [], total_candidates_searched := 0,
      geographic_eligible_count := 0, scored := [], st := stFive }
  | some (flagged, scored_sorted) =>
    { incentive_id := incDemo.id
      companies := save_matching_results flagged
      total_candidates_searched := 10
      geographic_eligible_count := flagged.length
      scored := save_scored_results scored_sorted
      st := iterFive.st }

theorem expansion_loop_envFive :
    expansion_loop envFive (create_search_query incDemo)
      incDemo.geo_requirement 50 10 (by decide) stFive 10 =
      .finalized finalFive 10 iterFive.st 1 :=
  expansion_loop_at_threshold envFive (create_search_query incDemo)
    incDemo.geo_requirement 50 10 (by decide) stFive 10 iterFive
    (by decide) rfl (by decide)

theorem find_matching_companies_envFive :
    find_matching_companies envFive incDemo 50 stFive = some outDemo := by
  simp only [find_matching_companies, expansion_loop_envFive]
  rfl

/-- A placeholder persisted scored entry. -/
def zeroEntry : ScoredEntry :=
  { id := 0, rank := 0, company_score := 0, semantic_score := 0,
    score_components := zeroRow, name := "", cae_classification := none,
    website := none, location_address := none, activities := none }

/-- Witness for C10 at the concrete `envFive` run: the first persisted
scored entry carries geographic fit `1`. -/
theorem C10_witness :
    (outDemo.scored.headD zeroEntry).score_components.g = 1 :=
  C10_persisted_scored_geo_fit.2 envFive incDemo 50 stFive outDemo
    find_matching_companies_envFive (outDemo.scored.headD zeroEntry)
    (by exact List.mem_cons_self _ _)

/-- Witness for C6 at a concrete failing scoring call. -/
theorem C6_witness :
    ∃ scored,
      finalize_stage envEmpty incPlain [cPlain] =
        some (flag_geo_eligible [cPlain], scored) ∧
      scored.map (fun p => p.1.company_score) =
        List.replicate ([cPlain] : List Company).length (some 0) ∧
      scored.map (fun p => p.1.id) = [cPlain].map Company.id :=
  C6_scoring_fallback_keeps_order envEmpty incPlain [cPlain] (Or.inl rfl)
